import Mathlib

/-!
# Verification of the rcloneflix scan/catalog engine

Shallow embedding of the scanning and catalog-store logic of the
rcloneflix repository (the TypeScript sources `scanner.ts`, the zustand
`appStore.ts` and the `ScanBar` component), together with proofs of the
specification claims about it.

Modelling conventions, stated once here:

* JavaScript objects used as keyed maps (`Record<string, T>`) are modelled
  as insertion-ordered association lists `List (κ × T)`; `Object.values`
  is `List.map Prod.snd`.  (JS reorders integer-like string keys first;
  none of the claims depends on that, and every place the code consumes
  `Object.values` either searches or re-sorts the list.)
* JS `undefined` for an optional field is `Option.none`.  A TypeScript
  `Partial<T>` object is modelled with one more `Option` layer recording
  whether the *key* is present in the object literal: object spread
  (`{...base, ...meta}`) lets a key that is present with an `undefined`
  value overwrite the base field, which the extra layer captures.
* Clock: `Date.now()` reads `World.time` (milliseconds, `Int`); awaiting
  `setTimeout(w)` advances the clock by exactly `w`; a network fetch
  advances it by the oracle-chosen `elapsed` of the response.  This is the
  idealised single-threaded cooperative schedule of the Tauri webview.
* Numeric metadata carried opaquely (ratings, sizes, timestamps) is
  modelled as `Int`; the code never computes with these values.
  `Math.round((idx / Math.max(total,1)) * 100)` is evaluated exactly over
  the rationals (`jsRound100` below); provider date strings are modelled
  by the year that `parseInt(s.split("-")[0])` extracts from them.
* Network responses come from an oracle indexed by the number of requests
  issued so far; a response is either a transport failure (the promise
  rejects) or a status/body pair.  Provider JSON bodies are modelled by
  the fields each fetcher actually reads.
* The API keys put into Authorization headers do not affect control flow
  and are dropped from the fetchers; the truthy-key guards of the provider
  dispatch in `scanLibrary` (`metaFor` below) are modelled.  Likewise the
  `knownPaths` snapshot passed to the Rust listing command is subsumed by
  the listing oracle, since the command's result is an input here.
-/

/-- Minimum inter-request spacing of the throttle gate, in milliseconds
(`const MIN_REQUEST_GAP = 120` in scanner.ts). -/
def MIN_REQUEST_GAP : Int := 120

/-- JS truthiness of an optional number (`0` and `undefined` are falsy). -/
def jsTruthy : Option Int → Bool
  | none => false
  | some v => v != 0

/-- Exact value of `Math.round((idx / Math.max(total, 1)) * 100)` for
natural `idx`, `total`: `Math.round x = ⌊x + 1/2⌋` for nonnegative `x`,
so the result is `⌊(200*idx + t) / (2*t)⌋` with `t = max total 1`. -/
def jsRound100 (idx total : Nat) : Nat :=
  (200 * idx + max total 1) / (2 * max total 1)

-- ─── Association lists (JS `Record` objects) ─────────────────────────────────

/-- `n[k] = v` on a JS object: overwrite in place if the key exists,
otherwise append (insertion order preserved). -/
def alSet {κ α : Type} [DecidableEq κ] (l : List (κ × α)) (k : κ) (v : α) :
    List (κ × α) :=
  if l.any (fun p => p.1 = k) then
    l.map (fun p => if p.1 = k then (k, v) else p)
  else l ++ [(k, v)]

/-- `delete n[k]` on a JS object. -/
def alRemove {κ α : Type} [DecidableEq κ] (l : List (κ × α)) (k : κ) :
    List (κ × α) :=
  l.filter (fun p => p.1 ≠ k)

/-- `n[k]` lookup on a JS object (`undefined` when absent). -/
def alGet {κ α : Type} [DecidableEq κ] (l : List (κ × α)) (k : κ) : Option α :=
  (l.find? (fun p => p.1 = k)).map Prod.snd

/-- Update the value stored at an existing key, leaving its position. -/
def alUpdate {κ α : Type} [DecidableEq κ] (l : List (κ × α)) (k : κ)
    (f : α → α) : List (κ × α) :=
  l.map (fun p => if p.1 = k then (p.1, f p.2) else p)

-- ─── Stable JS sort (`Array.prototype.sort` with a numeric comparator) ──────

/-- Insert `x` after every element `y` of the (already sorted) list with
`cmp y x ≤ 0`; with `jsSort` below this models a stable ascending sort by
the comparator, which is what `Array.prototype.sort` guarantees. -/
def jsInsert {α : Type} (cmp : α → α → Int) (x : α) : List α → List α
  | [] => [x]
  | y :: ys => if cmp y x ≤ 0 then y :: jsInsert cmp x ys else x :: y :: ys

/-- Stable sort by a JS comparator (insertion sort, left fold). -/
def jsSort {α : Type} (cmp : α → α → Int) (l : List α) : List α :=
  l.foldl (fun acc x => jsInsert cmp x acc) []

/-- Comparator modelling `a.localeCompare(b)` on strings (code-point
lexicographic order; the locale refinement is irrelevant to the claims). -/
def localeCmp (a b : String) : Int :=
  if a < b then -1 else if a = b then 0 else 1

-- ─── Data model (appStore.ts types) ──────────────────────────────────────────

inductive LibraryType where
  | movies | tv | music | audiobooks | books | adult
  deriving DecidableEq

structure Library where
  id : String
  name : String
  type : LibraryType
  remotePath : String
  deriving DecidableEq

inductive MetaSource where
  | tmdb | musicbrainz | openlibrary | audnexus | theporndb | manual
  deriving DecidableEq

inductive Confidence where
  | high | low | manual
  deriving DecidableEq

/-- The `MediaItem` record of appStore.ts. -/
structure MediaItem where
  id : String
  libraryId : String
  libraryType : LibraryType
  remotePath : String
  filename : String
  title : String
  year : Option Int := none
  posterUrl : Option String := none
  backdropUrl : Option String := none
  thumbUrl : Option String := none
  overview : Option String := none
  rating : Option Int := none
  genres : Option (List String) := none
  duration : Option Int := none
  metadataId : Option String := none
  metadataSource : Option MetaSource := none
  metadataConfidence : Option Confidence := none
  addedAt : Int := 0
  lastScannedAt : Int := 0
  season : Option Int := none
  episode : Option Int := none
  episodeTitle : Option String := none
  showTitle : Option String := none
  showId : Option String := none
  showPosterUrl : Option String := none
  showBackdropUrl : Option String := none
  showOverview : Option String := none
  artist : Option String := none
  album : Option String := none
  trackNumber : Option Int := none
  author : Option String := none
  deriving DecidableEq

/-- The `WatchProgress` record of appStore.ts. -/
structure WatchProgress where
  itemId : String
  position : Int
  duration : Int
  completed : Bool
  lastWatchedAt : Int
  cfi : Option String := none
  deriving DecidableEq

inductive ScanStatus where
  | idle | scanning | error
  deriving DecidableEq

/-- The `ScanState` record of appStore.ts. -/
structure ScanState where
  status : ScanStatus
  currentLibrary : Option String := none
  progress : Option Nat := none
  lastScanAt : Option Int := none
  lastError : Option String := none
  newItemsFound : Nat := 0
  deriving DecidableEq

/-- `Partial<ScanState>`: the outer `Option` on each field records whether
the key is present in the object literal passed to `setScanState`; object
spread merges present keys over the previous state even when the value is
`undefined` (inner `none`). -/
structure PScanState where
  status : Option ScanStatus := none
  currentLibrary : Option (Option String) := none
  progress : Option (Option Nat) := none
  lastScanAt : Option (Option Int) := none
  lastError : Option (Option String) := none
  newItemsFound : Option Nat := none
  deriving DecidableEq

/-- `{...s, ...p}` for a `ScanState` and a `Partial<ScanState>`. -/
def applyPScan (s : ScanState) (p : PScanState) : ScanState :=
  { status := p.status.getD s.status
    currentLibrary := p.currentLibrary.getD s.currentLibrary
    progress := p.progress.getD s.progress
    lastScanAt := p.lastScanAt.getD s.lastScanAt
    lastError := p.lastError.getD s.lastError
    newItemsFound := p.newItemsFound.getD s.newItemsFound }

-- ─── App store state and actions (appStore.ts) ───────────────────────────────

/-- The slice of the zustand store the scanning engine and the claims
touch.  `stateLog` is observational instrumentation only: it records the
sequence of `ScanState` values produced by `setScanState`, i.e. exactly
what a zustand subscriber (the progress-observing UI) sees; no definition
reads it back. -/
structure AppState where
  tmdbApiKey : String := ""
  thePornDbApiKey : String := ""
  rcloneConfigPath : String := ""
  libraries : List Library := []
  mediaItems : List (String × MediaItem) := []
  watchProgress : List (String × WatchProgress) := []
  scanState : ScanState := { status := .idle }
  stateLog : List ScanState := []
  deriving DecidableEq

/-- Store action `upsertMediaItem`. -/
def upsertMediaItem (s : AppState) (item : MediaItem) : AppState :=
  { s with mediaItems := alSet s.mediaItems item.id item }

/-- Store action `removeMediaItem`: deletes the id from `mediaItems` and
touches nothing else. -/
def removeMediaItem (s : AppState) (id : String) : AppState :=
  { s with mediaItems := alRemove s.mediaItems id }

/-- Store action `bulkUpsertMediaItems`. -/
def bulkUpsertMediaItems (s : AppState) (items : List MediaItem) : AppState :=
  { s with mediaItems := items.foldl (fun n i => alSet n i.id i) s.mediaItems }

/-- Store action `updateWatchProgress`. -/
def updateWatchProgress (s : AppState) (p : WatchProgress) : AppState :=
  { s with watchProgress := alSet s.watchProgress p.itemId p }

/-- Store action `clearProgress`: deletes the id from `watchProgress` and
touches nothing else. -/
def clearProgress (s : AppState) (itemId : String) : AppState :=
  { s with watchProgress := alRemove s.watchProgress itemId }

/-- Store action `setScanState` (`{...s.scanState, ...state}`), also
appending the resulting state to the observer log. -/
def setScanState (s : AppState) (p : PScanState) : AppState :=
  let sc := applyPScan s.scanState p
  { s with scanState := sc, stateLog := s.stateLog ++ [sc] }

-- ─── Selectors (appStore.ts bottom section) ──────────────────────────────────

/-- `selectInProgress`: entries of `watchProgress` that are not completed,
past the 30-unit threshold and whose item is present in `mediaItems`
(`items[p.itemId]` is truthy), newest-watched first, truncated to `limit`,
each paired with the store's item for its id. -/
def selectInProgress (items : List (String × MediaItem))
    (progress : List (String × WatchProgress)) (limit : Nat) :
    List (Option MediaItem × WatchProgress) :=
  ((((progress.map Prod.snd).filter
        (fun p => !p.completed && decide (30 < p.position)
          && (alGet items p.itemId).isSome)
      |> jsSort (fun a b => b.lastWatchedAt - a.lastWatchedAt))
      |>.take limit)
      |>.map (fun p => (alGet items p.itemId, p)))

/-- The `TvSeason` record. -/
structure TvSeason where
  seasonNumber : Int
  episodes : List MediaItem
  deriving DecidableEq

/-- The `TvShow` record (`seasons` is a JS `Record<number, TvSeason>`,
modelled as an insertion-ordered association list). -/
structure TvShow where
  showId : String
  title : String
  posterUrl : Option String := none
  backdropUrl : Option String := none
  overview : Option String := none
  rating : Option Int := none
  year : Option Int := none
  libraryId : String
  seasons : List (Int × TvSeason) := []
  episodeCount : Nat := 0
  deriving DecidableEq

/-- One iteration of the `selectTvShows` loop: place episode `ep` in the
show/season map. -/
def tvStep (lid : String) (m : List (String × TvShow)) (ep : MediaItem) :
    List (String × TvShow) :=
  let showKey := ep.showId.getD (ep.showTitle.getD ep.title)
  let m :=
    if m.any (fun p => p.1 = showKey) then m
    else m ++ [(showKey,
      { showId := showKey
        title := ep.showTitle.getD ep.title
        posterUrl := ep.showPosterUrl.orElse (fun _ => ep.posterUrl)
        backdropUrl := ep.showBackdropUrl.orElse (fun _ => ep.backdropUrl)
        overview := ep.showOverview.orElse (fun _ => ep.overview)
        rating := ep.rating
        year := ep.year
        libraryId := lid
        seasons := []
        episodeCount := 0 })]
  alUpdate m showKey (fun sh =>
    let sn := ep.season.getD 1
    let seasons :=
      if sh.seasons.any (fun p => p.1 = sn) then sh.seasons
      else sh.seasons ++ [(sn, { seasonNumber := sn, episodes := [] })]
    let seasons := alUpdate seasons sn (fun se =>
      { se with episodes :=
          (jsSort (fun a b => a.episode.getD 0 - b.episode.getD 0)
            (se.episodes ++ [ep])) })
    { sh with seasons := seasons, episodeCount := sh.episodeCount + 1 })

/-- `selectTvShows`: bucket the library's TV items into
show → season → episode, shows sorted by title. -/
def selectTvShows (items : List (String × MediaItem)) (lid : String) :
    List TvShow :=
  let episodes := (items.map Prod.snd).filter
    (fun i => decide (i.libraryId = lid) && decide (i.libraryType = .tv))
  let showMap := episodes.foldl (tvStep lid) []
  jsSort (fun a b => localeCmp a.title b.title) (showMap.map Prod.snd)

-- ─── Network effect model (scanner.ts) ───────────────────────────────────────

/-- One HTTP request as issued by the scanner; `viaGate` records whether it
went through `rateLimitedFetch` (the throttle gate) or plain `fetch`. -/
structure Request where
  url : String
  sentAt : Int
  viaGate : Bool
  deriving DecidableEq

/-- Provider JSON bodies, restricted to the fields the fetchers read.
Reading a body through the wrong projection yields the empty result, which
is what optional chaining (`data.results?.[0]` etc.) does on a mismatched
shape. -/
structure TmdbMovieRec where
  id : Nat
  title : Option String := none
  releaseYear : Option Int := none
  poster_path : Option String := none
  backdrop_path : Option String := none
  overview : Option String := none
  vote_average : Option Int := none
  deriving DecidableEq

structure TmdbShowRec where
  id : Nat
  name : Option String := none
  firstAirYear : Option Int := none
  poster_path : Option String := none
  backdrop_path : Option String := none
  overview : Option String := none
  vote_average : Option Int := none
  deriving DecidableEq

structure TmdbEpisodeRec where
  name : Option String := none
  still_path : Option String := none
  deriving DecidableEq

structure MBRec where
  id : String
  title : Option String := none
  artistName : Option String := none
  releaseTitle : Option String := none
  releaseYear : Option Int := none
  deriving DecidableEq

structure OLRec where
  key : String
  title : Option String := none
  author0 : Option String := none
  first_publish_year : Option Int := none
  cover_i : Option Nat := none
  deriving DecidableEq

structure SceneRec where
  id : Nat
  title : Option String := none
  poster0Url : Option String := none
  description : Option String := none
  deriving DecidableEq

inductive Body where
  | empty
  | movieSearch (results : List TmdbMovieRec)
  | tvSearch (results : List TmdbShowRec)
  | tvEpisode (ep : TmdbEpisodeRec)
  | mbSearch (recordings : List MBRec)
  | olSearch (docs : List OLRec)
  | sceneSearch (data : List SceneRec)
  deriving DecidableEq

def Body.movieResults : Body → List TmdbMovieRec
  | .movieSearch rs => rs
  | _ => []

def Body.tvResults : Body → List TmdbShowRec
  | .tvSearch rs => rs
  | _ => []

def Body.episodeRec : Body → Option TmdbEpisodeRec
  | .tvEpisode e => some e
  | _ => none

def Body.mbRecordings : Body → List MBRec
  | .mbSearch rs => rs
  | _ => []

def Body.olDocs : Body → List OLRec
  | .olSearch rs => rs
  | _ => []

def Body.sceneData : Body → List SceneRec
  | .sceneSearch rs => rs
  | _ => []

/-- An HTTP response: status, the network time the fetch took, body. -/
structure Response where
  status : Int
  elapsed : Nat
  body : Body
  deriving DecidableEq

/-- `Response.ok` of the Fetch API: status in the 2xx range. -/
def Response.ok (r : Response) : Bool :=
  decide (200 ≤ r.status ∧ r.status ≤ 299)

/-- The network oracle: outcome of the `n`-th request issued by the
process (`Except.error` = the fetch promise rejects, a network failure). -/
def Oracle : Type := Nat → Except String Response

/-- Mutable world of scanner.ts: the clock read by `Date.now()`, the
module-global `lastRequestTime` (initially 0), and the ordered log of
issued requests. -/
structure World where
  time : Int
  lastRequestTime : Int
  log : List Request
  deriving DecidableEq

/-- `await new Promise(r => setTimeout(r, ms))`. -/
def sleep (ms : Int) (w : World) : World :=
  { w with time := w.time + ms }

/-- Plain `fetch(url)`: consult the oracle for the next request index,
record the request, advance the clock by the network time. -/
def fetchRaw (o : Oracle) (url : String) (gate : Bool) (w : World) :
    Except String Response × World :=
  let outcome := o w.log.length
  let w' := { w with log := w.log ++ [⟨url, w.time, gate⟩] }
  match outcome with
  | .error e => (.error e, w')
  | .ok resp => (.ok resp, { w' with time := w'.time + resp.elapsed })

/-- `rateLimitedFetch`: wait out the remainder of `MIN_REQUEST_GAP` since
`lastRequestTime`, stamp `lastRequestTime = Date.now()`, then fetch. -/
def rateLimitedFetch (o : Oracle) (url : String) (w : World) :
    Except String Response × World :=
  let wait := max 0 (MIN_REQUEST_GAP - (w.time - w.lastRequestTime))
  let w := sleep wait w
  let w := { w with lastRequestTime := w.time }
  fetchRaw o url true w

/-- The loop body of `fetchWithRetry`: `i` is the number of attempts
already made (used for the backoff exponent), `fuel` the attempts left. -/
def fetchWithRetryAux (o : Oracle) (url : String) :
    Nat → Nat → World → Except String Response × World
  | _, 0, w => (.error "Max retries exceeded", w)
  | i, fuel + 1, w =>
    match rateLimitedFetch o url w with
    | (.error e, w) => (.error e, w)
    | (.ok resp, w) =>
      if resp.status = 429 then
        fetchWithRetryAux o url (i + 1) fuel (sleep (2 ^ i * 2000) w)
      else (.ok resp, w)

/-- `fetchWithRetry(url, options, retries = 3)`. -/
def fetchWithRetry (o : Oracle) (url : String) (retries : Nat) (w : World) :
    Except String Response × World :=
  fetchWithRetryAux o url 0 retries w

-- ─── Partial MediaItem results of the metadata fetchers ──────────────────────

/-- `Partial<MediaItem>` as returned by the metadata fetchers.  The outer
`Option` on each field records whether the key appears in the returned
object literal; for the optional `MediaItem` fields the inner `Option` is
the (possibly `undefined`) value, so `some none` is a key that is present
with an explicitly `undefined` value — under object spread it still
overwrites the base field. -/
structure PMediaItem where
  title : Option String := none
  year : Option (Option Int) := none
  posterUrl : Option (Option String) := none
  backdropUrl : Option (Option String) := none
  thumbUrl : Option (Option String) := none
  overview : Option (Option String) := none
  rating : Option (Option Int) := none
  metadataId : Option (Option String) := none
  metadataSource : Option (Option MetaSource) := none
  metadataConfidence : Option (Option Confidence) := none
  episodeTitle : Option (Option String) := none
  showTitle : Option (Option String) := none
  showId : Option (Option String) := none
  showPosterUrl : Option (Option String) := none
  showBackdropUrl : Option (Option String) := none
  showOverview : Option (Option String) := none
  artist : Option (Option String) := none
  album : Option (Option String) := none
  author : Option (Option String) := none
  deriving DecidableEq

/-- `{ ...baseItem, ...meta }`: a key present in `meta` overwrites the
base field (even when its value is `undefined`); absent keys keep the
base value.  Fields no fetcher ever returns are kept from the base. -/
def mergeItem (b : MediaItem) (m : PMediaItem) : MediaItem :=
  { b with
    title := m.title.getD b.title
    year := m.year.getD b.year
    posterUrl := m.posterUrl.getD b.posterUrl
    backdropUrl := m.backdropUrl.getD b.backdropUrl
    thumbUrl := m.thumbUrl.getD b.thumbUrl
    overview := m.overview.getD b.overview
    rating := m.rating.getD b.rating
    metadataId := m.metadataId.getD b.metadataId
    metadataSource := m.metadataSource.getD b.metadataSource
    metadataConfidence := m.metadataConfidence.getD b.metadataConfidence
    episodeTitle := m.episodeTitle.getD b.episodeTitle
    showTitle := m.showTitle.getD b.showTitle
    showId := m.showId.getD b.showId
    showPosterUrl := m.showPosterUrl.getD b.showPosterUrl
    showBackdropUrl := m.showBackdropUrl.getD b.showBackdropUrl
    showOverview := m.showOverview.getD b.showOverview
    artist := m.artist.getD b.artist
    album := m.album.getD b.album
    author := m.author.getD b.author }

-- ─── Metadata fetchers (scanner.ts) ──────────────────────────────────────────

/-- URL helpers.  `encodeURIComponent` is abstracted as the identity:
URLs only serve to identify requests in the log. -/
def movieSearchUrl (q : String) (year : Option Int) : String :=
  "https://api.themoviedb.org/3/search/movie?query=" ++ q ++
    (match year with
     | some y => "&year=" ++ toString y
     | none => "") ++ "&language=en-US&page=1"

def tvSearchUrl (q : String) : String :=
  "https://api.themoviedb.org/3/search/tv?query=" ++ q ++ "&language=en-US&page=1"

def tvEpisodeUrl (showId : Nat) (season episode : Option Int) : String :=
  "https://api.themoviedb.org/3/tv/" ++ toString showId ++ "/season/" ++
    (match season with | some s => toString s | none => "") ++ "/episode/" ++
    (match episode with | some e => toString e | none => "") ++ "?language=en-US"

def mbUrl (q : String) : String :=
  "https://musicbrainz.org/ws/2/recording?query=" ++ q ++ "&limit=1&fmt=json"

def olUrl (q : String) : String :=
  "https://openlibrary.org/search.json?q=" ++ q ++ "&limit=1"

def sceneUrl (q : String) : String :=
  "https://theporndb.net/api/scenes?q=" ++ q

def img342 (p : String) : String := "https://image.tmdb.org/t/p/w342" ++ p
def img780 (p : String) : String := "https://image.tmdb.org/t/p/w780" ++ p
def img300 (p : String) : String := "https://image.tmdb.org/t/p/w300" ++ p

/-- `fetchTmdbMovie`: TMDB movie search through the throttled retrying
fetch; the surrounding `try/catch` turns every thrown error into `{}`. -/
def fetchTmdbMovie (o : Oracle) (title : String) (year : Option Int)
    (w : World) : PMediaItem × World :=
  match fetchWithRetry o (movieSearchUrl title year) 3 w with
  | (.error _, w) => ({}, w)
  | (.ok resp, w) =>
    if !resp.ok then ({}, w)
    else
      match resp.body.movieResults.head? with
      | none => ({}, w)
      | some r =>
        ({ title := some (r.title.getD title)
           year := some (match r.releaseYear with
             | some y => some y
             | none => year)
           posterUrl := some (r.poster_path.map img342)
           backdropUrl := some (r.backdrop_path.map img780)
           overview := some r.overview
           rating := some r.vote_average
           metadataId := some (some (toString r.id))
           metadataSource := some (some .tmdb)
           metadataConfidence := some (some .high) }, w)

/-- `fetchTmdbTv`: TMDB show search, then (when season and episode are
both truthy) an episode lookup whose own failure is swallowed by an inner
`try/catch`.  Note the returned object always carries a `year` key, which
is `undefined` whenever the show has no `first_air_date`. -/
def fetchTmdbTv (o : Oracle) (showTitle : String)
    (season episode : Option Int) (w : World) : PMediaItem × World :=
  match fetchWithRetry o (tvSearchUrl showTitle) 3 w with
  | (.error _, w) => ({}, w)
  | (.ok searchResp, w) =>
    if !searchResp.ok then ({}, w)
    else
      match searchResp.body.tvResults.head? with
      | none => ({}, w)
      | some sh =>
        let showPosterUrl := sh.poster_path.map img342
        let showBackdropUrl := sh.backdrop_path.map img780
        let (epPair, w) :=
          if jsTruthy season && jsTruthy episode then
            match fetchWithRetry o (tvEpisodeUrl sh.id season episode) 3 w with
            | (.error _, w) => (((none : Option String), (none : Option String)), w)
            | (.ok epResp, w) =>
              if epResp.ok then
                match epResp.body.episodeRec with
                | some epData => ((epData.name, epData.still_path.map img300), w)
                | none => ((none, none), w)
              else ((none, none), w)
          else ((none, none), w)
        let episodeTitle := epPair.1
        let thumbUrl := epPair.2
        ({ showTitle := some (some (sh.name.getD showTitle))
           showId := some (some (toString sh.id))
           showPosterUrl := some showPosterUrl
           showBackdropUrl := some showBackdropUrl
           showOverview := some sh.overview
           posterUrl := some (thumbUrl.orElse (fun _ => showPosterUrl))
           backdropUrl := some showBackdropUrl
           thumbUrl := some thumbUrl
           episodeTitle := some episodeTitle
           year := some sh.firstAirYear
           rating := some sh.vote_average
           metadataId := some (some (toString sh.id))
           metadataSource := some (some .tmdb)
           metadataConfidence := some (some .high) }, w)

/-- `fetchMusicBrainz`: plain `fetch` — NOT the throttle gate. -/
def fetchMusicBrainz (o : Oracle) (title : String) (w : World) :
    PMediaItem × World :=
  match fetchRaw o (mbUrl title) false w with
  | (.error _, w) => ({}, w)
  | (.ok resp, w) =>
    if !resp.ok then ({}, w)
    else
      match resp.body.mbRecordings.head? with
      | none => ({}, w)
      | some r =>
        ({ title := some (r.title.getD title)
           artist := some r.artistName
           album := some r.releaseTitle
           year := some r.releaseYear
           metadataId := some (some r.id)
           metadataSource := some (some .musicbrainz)
           metadataConfidence := some (some .high) }, w)

/-- `fetchOpenLibrary`: plain `fetch` — NOT the throttle gate. -/
def fetchOpenLibrary (o : Oracle) (title : String) (w : World) :
    PMediaItem × World :=
  match fetchRaw o (olUrl title) false w with
  | (.error _, w) => ({}, w)
  | (.ok resp, w) =>
    if !resp.ok then ({}, w)
    else
      match resp.body.olDocs.head? with
      | none => ({}, w)
      | some r =>
        ({ title := some (r.title.getD title)
           author := some r.author0
           year := some r.first_publish_year
           posterUrl := some (r.cover_i.map (fun c =>
             "https://covers.openlibrary.org/b/id/" ++ toString c ++ "-M.jpg"))
           metadataId := some (some r.key)
           metadataSource := some (some .openlibrary)
           metadataConfidence := some (some .high) }, w)

-- ─── Scan orchestrator (scanner.ts scanLibrary / scanAllLibraries) ───────────

/-- A file descriptor returned by the Rust `scan_library_files` command. -/
structure DiscoveredFile where
  remote_path : String
  filename : String
  size : Int := 0
  is_dir : Bool := false
  mime_type : Option String := none
  deriving DecidableEq

/-- The delta returned by `scan_library_files`. -/
structure LibraryScanResult where
  library_id : String := ""
  new_files : List DiscoveredFile
  removed_paths : List String
  total_found : Nat := 0
  errors : List String := []
  deriving DecidableEq

/-- The structured guess of the Rust `parse_media_filename` command. -/
structure ParsedTitle where
  title : String
  year : Option Int := none
  season : Option Int := none
  episode : Option Int := none
  is_episode : Bool := false
  deriving DecidableEq

/-- API keys destructured in `scanLibrary`. -/
structure ApiKeys where
  tmdb : String
  theporndb : String
  deriving DecidableEq

/-- Oracles for the three awaited Tauri commands: the remote listing, the
title parser and the stable-id hash (each may reject). -/
structure ScanInputs where
  http : Oracle
  listing : Except String LibraryScanResult
  parse : String → Except String ParsedTitle
  hash : String → Except String String

/-- The `baseItem` literal built for each newly discovered file
(`confidence = low`, all metadata fields absent). -/
def mkBase (lib : Library) (f : DiscoveredFile) (parsed : ParsedTitle)
    (id : String) (now : Int) : MediaItem :=
  { id := id
    libraryId := lib.id
    libraryType := lib.type
    remotePath := f.remote_path
    filename := f.filename
    title := parsed.title
    year := parsed.year
    season := parsed.season
    episode := parsed.episode
    addedAt := now
    lastScannedAt := now
    metadataConfidence := some .low }

/-- Provider dispatch of `scanLibrary`: one branch per library type, the
TMDB and ThePornDB branches guarded by a truthy (non-empty) key.  The
adult branch inlines its fetch with its own `try/catch`. -/
def metaFor (lib : Library) (keys : ApiKeys) (o : Oracle)
    (parsed : ParsedTitle) (w : World) : PMediaItem × World :=
  match lib.type with
  | .movies =>
    if keys.tmdb ≠ "" then fetchTmdbMovie o parsed.title parsed.year w
    else ({}, w)
  | .tv =>
    if keys.tmdb ≠ "" then
      fetchTmdbTv o parsed.title parsed.season parsed.episode w
    else ({}, w)
  | .music => fetchMusicBrainz o parsed.title w
  | .books => fetchOpenLibrary o parsed.title w
  | .audiobooks => fetchOpenLibrary o parsed.title w
  | .adult =>
    if keys.theporndb ≠ "" then
      match fetchWithRetry o (sceneUrl parsed.title) 3 w with
      | (.error _, w) => ({}, w)
      | (.ok resp, w) =>
        if resp.ok then
          match resp.body.sceneData.head? with
          | some scene =>
            ({ title := some (scene.title.getD parsed.title)
               posterUrl := some scene.poster0Url
               overview := some scene.description
               metadataId := some (some (toString scene.id))
               metadataSource := some (some .theporndb)
               metadataConfidence := some (some .high) }, w)
          | none => ({}, w)
        else ({}, w)
    else ({}, w)

/-- The per-file loop of `scanLibrary`: update progress, parse, hash,
build the base item, fetch and merge metadata, flush every 20 items.
Errors of the awaited commands abort the loop (to be caught by the
caller); accumulated items and flushed batches stay where they are. -/
def processFiles (lib : Library) (keys : ApiKeys) (inp : ScanInputs)
    (total : Nat) :
    List DiscoveredFile → Nat → List MediaItem → AppState → World →
      Except String (List MediaItem) × AppState × World
  | [], _, acc, s, w => (.ok acc, s, w)
  | f :: rest, idx, acc, s, w =>
    let s := setScanState s
      { progress := some (some (jsRound100 idx total))
        newItemsFound := some idx }
    match inp.parse f.filename with
    | .error e => (.error e, s, w)
    | .ok parsed =>
      match inp.hash f.remote_path with
      | .error e => (.error e, s, w)
      | .ok id =>
        let base := mkBase lib f parsed id w.time
        let (meta, w) := metaFor lib keys inp.http parsed w
        let acc := acc ++ [mergeItem base meta]
        let s := if acc.length % 20 = 0 then bulkUpsertMediaItems s acc else s
        processFiles lib keys inp total rest (idx + 1) acc s w

/-- The removals loop of `scanLibrary`: for each removed path, look up the
item in the entry snapshot `items0` and delete its id from the live
store. -/
def applyRemovals (items0 : List (String × MediaItem)) (paths : List String)
    (s : AppState) : AppState :=
  paths.foldl (fun s rp =>
    match (items0.map Prod.snd).find? (fun i => i.remotePath = rp) with
    | some item => removeMediaItem s item.id
    | none => s) s

/-- The body of `scanLibrary`'s `try` block.  `items0` is the snapshot of
`mediaItems` destructured at entry (the removals loop searches this
snapshot, not the live store). -/
def scanCore (lib : Library) (keys : ApiKeys) (inp : ScanInputs)
    (items0 : List (String × MediaItem)) (s : AppState) (w : World) :
    Except String (Nat × Nat) × AppState × World :=
  match inp.listing with
  | .error e => (.error e, s, w)
  | .ok result =>
    let s := applyRemovals items0 result.removed_paths s
    let total := result.new_files.length
    match processFiles lib keys inp total result.new_files 0 [] s w with
    | (.error e, s, w) => (.error e, s, w)
    | (.ok newItems, s, w) =>
      let s := if newItems.length > 0 then bulkUpsertMediaItems s newItems else s
      let s := setScanState s
        { status := some .idle
          progress := some (some 100)
          lastScanAt := some (some w.time)
          newItemsFound := some newItems.length
          currentLibrary := some none }
      (.ok (newItems.length, result.removed_paths.length), s, w)

/-- `scanLibrary`: snapshot the store, enter the `scanning` state, run the
core, and on any thrown error record it in the scan state (the store keeps
whatever mutations had already been applied) and rethrow. -/
def scanLibrary (lib : Library) (keys : ApiKeys) (inp : ScanInputs)
    (s : AppState) (w : World) :
    Except String (Nat × Nat) × AppState × World :=
  let items0 := s.mediaItems
  let s := setScanState s
    { status := some .scanning
      currentLibrary := some (some lib.name)
      progress := some (some 0)
      newItemsFound := some 0 }
  match scanCore lib keys inp items0 s w with
  | (.ok r, s, w) => (.ok r, s, w)
  | (.error e, s, w) =>
    (.error e,
      setScanState s
        { status := some .error
          lastError := some (some e)
          currentLibrary := some none }, w)

/-- `scanAllLibraries`: scan the libraries captured from the store at
entry, sequentially; a library's thrown error propagates (there is no
`try/catch` around the loop). -/
def scanAllLibraries (inps : Library → ScanInputs) (s : AppState)
    (w : World) : Except String Unit × AppState × World :=
  let keys : ApiKeys := { tmdb := s.tmdbApiKey, theporndb := s.thePornDbApiKey }
  let rec go : List Library → AppState → World →
      Except String Unit × AppState × World
    | [], s, w => (.ok (), s, w)
    | l :: rest, s, w =>
      match scanLibrary l keys (inps l) s w with
      | (.ok _, s, w) => go rest s w
      | (.error e, s, w) => (.error e, s, w)
  go s.libraries s w

/-- `ScanBar.handleScan`: a no-op while `scanState.status` is `scanning`;
otherwise scan the given library (when found) or all libraries. -/
def handleScan (libraryId : Option String) (inps : Library → ScanInputs)
    (s : AppState) (w : World) : Except String Unit × AppState × World :=
  if s.scanState.status = .scanning then (.ok (), s, w)
  else
    match libraryId with
    | some lid =>
      let keys : ApiKeys :=
        { tmdb := s.tmdbApiKey, theporndb := s.thePornDbApiKey }
      match s.libraries.find? (fun l => l.id = lid) with
      | some lib =>
        let (r, s, w) := scanLibrary lib keys (inps lib) s w
        (r.map (fun _ => ()), s, w)
      | none => (.ok (), s, w)
    | none => scanAllLibraries inps s w

-- ─── Claim-side definitions and concrete fixtures ────────────────────────────

/-- Modelled from the spec's words for the merge step ("merge any returned
fields over the base record (metadata fields win when present)", "any
base-record field that the metadata result does not provide keeps its base
value"): a metadata field overrides only when it carries a value, so a key
that is present but `undefined` does NOT override.  To be compared with
`mergeItem`, the object-spread merge the code performs. -/
def specMerge (b : MediaItem) (m : PMediaItem) : MediaItem :=
  { b with
    title := m.title.getD b.title
    year := (m.year.getD none).orElse (fun _ => b.year)
    posterUrl := (m.posterUrl.getD none).orElse (fun _ => b.posterUrl)
    backdropUrl := (m.backdropUrl.getD none).orElse (fun _ => b.backdropUrl)
    thumbUrl := (m.thumbUrl.getD none).orElse (fun _ => b.thumbUrl)
    overview := (m.overview.getD none).orElse (fun _ => b.overview)
    rating := (m.rating.getD none).orElse (fun _ => b.rating)
    metadataId := (m.metadataId.getD none).orElse (fun _ => b.metadataId)
    metadataSource := (m.metadataSource.getD none).orElse (fun _ => b.metadataSource)
    metadataConfidence := (m.metadataConfidence.getD none).orElse (fun _ => b.metadataConfidence)
    episodeTitle := (m.episodeTitle.getD none).orElse (fun _ => b.episodeTitle)
    showTitle := (m.showTitle.getD none).orElse (fun _ => b.showTitle)
    showId := (m.showId.getD none).orElse (fun _ => b.showId)
    showPosterUrl := (m.showPosterUrl.getD none).orElse (fun _ => b.showPosterUrl)
    showBackdropUrl := (m.showBackdropUrl.getD none).orElse (fun _ => b.showBackdropUrl)
    showOverview := (m.showOverview.getD none).orElse (fun _ => b.showOverview)
    artist := (m.artist.getD none).orElse (fun _ => b.artist)
    album := (m.album.getD none).orElse (fun _ => b.album)
    author := (m.author.getD none).orElse (fun _ => b.author) }

/-- The provider always answers with a rate-limit response. -/
def always429 (o : Oracle) : Prop :=
  ∀ n, ∃ r, o n = Except.ok r ∧ r.status = 429

/-- Every request outcome is a failure for the movie fetcher: a network
rejection, a non-2xx status, or a 2xx answer with no search results. -/
def failingMovie (o : Oracle) : Prop :=
  ∀ n, match o n with
    | .error _ => True
    | .ok r => r.ok = false ∨ r.body.movieResults = []

/-- Issue times of the requests that went through the throttle gate. -/
def gateTimes (w : World) : List Int :=
  (w.log.filter (fun r => r.viaGate)).map (fun r => r.sentAt)

/-- Gate invariant: gated requests are at least `MIN_REQUEST_GAP` apart
and all lie at or before the recorded `lastRequestTime`. -/
def gateOK (w : World) : Prop :=
  List.Chain' (fun a b => a + MIN_REQUEST_GAP ≤ b) (gateTimes w) ∧
    ∀ t ∈ gateTimes w, t ≤ w.lastRequestTime

/-- Consecutive issue times separated by exponentially growing backoffs:
the gap after the `k`-th listed time is at least `2^(i+k) * 2000` ms. -/
def ExpGaps : Nat → List Int → Prop
  | _, [] => True
  | _, [_] => True
  | i, a :: b :: rest => a + 2 ^ i * 2000 ≤ b ∧ ExpGaps (i + 1) (b :: rest)

-- Concrete fixtures used by counterexamples and witnesses.

def oracleFail : Oracle := fun _ => .error "network down"

def oracle429 : Oracle := fun _ => .ok { status := 429, elapsed := 0, body := .empty }

def oracleMB200 : Oracle := fun _ => .ok { status := 200, elapsed := 0, body := .mbSearch [] }

/-- TMDB TV search hit whose show record has no `first_air_date`. -/
def oracleTvNoYear : Oracle :=
  fun _ => .ok { status := 200, elapsed := 0,
                 body := .tvSearch [{ id := 7, name := some "Great Show" }] }

def w0 : World := { time := 0, lastRequestTime := 0, log := [] }

def keysOn : ApiKeys := { tmdb := "k-tmdb", theporndb := "k-pdb" }

def libMovies : Library :=
  { id := "L", name := "Films", type := .movies, remotePath := "gd:/Movies" }

def libTv : Library :=
  { id := "LT", name := "Shows", type := .tv, remotePath := "gd:/TV" }

def itemA : MediaItem :=
  { id := "A", libraryId := "L", libraryType := .movies, remotePath := "p",
    filename := "a.mkv", title := "A" }

def fileQ : DiscoveredFile := { remote_path := "q", filename := "g.mkv" }

def fileQ2 : DiscoveredFile := { remote_path := "q2", filename := "h.mkv" }

def sA : AppState := { mediaItems := [("A", itemA)] }

def sBusy : AppState :=
  { mediaItems := [("A", itemA)], scanState := { status := .scanning } }

def parsedTv : ParsedTitle := { title := "Great Show", year := some 1999 }

/-- Scan input where the listing reports one removed path and one new
file, and the title-parse command then rejects. -/
def inpC1 : ScanInputs :=
  { http := oracleFail
    listing := .ok { new_files := [fileQ], removed_paths := ["p"] }
    parse := fun _ => .error "boom"
    hash := fun p => .ok p }

/-- Scan input for a one-file TV scan whose metadata match lacks a
first-air date. -/
def inpC2 : ScanInputs :=
  { http := oracleTvNoYear
    listing := .ok { new_files := [fileQ], removed_paths := [] }
    parse := fun _ => .ok parsedTv
    hash := fun _ => .ok "H" }

/-- Scan input removing path `p` with no new files. -/
def inpC7 : ScanInputs :=
  { http := oracleFail
    listing := .ok { new_files := [], removed_paths := ["p"] }
    parse := fun f => .ok { title := f }
    hash := fun p => .ok p }

/-- Scan input for a successful two-file movie scan whose metadata
requests all fail (enrichment skipped, scan succeeds). -/
def inpC3 : ScanInputs :=
  { http := oracleFail
    listing := .ok { new_files := [fileQ, fileQ2], removed_paths := [] }
    parse := fun f => .ok { title := f }
    hash := fun p => .ok p }

def tvEp1 : MediaItem :=
  { id := "e1", libraryId := "L", libraryType := .tv, remotePath := "t1",
    filename := "s01e01.mkv", title := "Show S01E01", season := some 1,
    episode := some 1, showTitle := some "Show" }

def tvEp2 : MediaItem :=
  { id := "e2", libraryId := "L", libraryType := .tv, remotePath := "t2",
    filename := "s01e02.mkv", title := "Show S01E02", season := some 1,
    episode := some 2, showTitle := some "Show" }

def tvEp3 : MediaItem :=
  { id := "e3", libraryId := "L", libraryType := .tv, remotePath := "t3",
    filename := "s02e01.mkv", title := "Show S02E01", season := some 2,
    episode := some 1, showTitle := some "Show" }

/-- The `{S1E1, S1E2, S2E1}` fixture, deliberately stored out of episode
order so the claim's ordering requirement is exercised. -/
def tvItemsC8 : List (String × MediaItem) :=
  [("e2", tvEp2), ("e1", tvEp1), ("e3", tvEp3)]

def progA : WatchProgress :=
  { itemId := "A", position := 40, duration := 100, completed := false,
    lastWatchedAt := 5 }

/-- A dangling progress record: not completed, past the threshold, but its
item id is absent from the catalog. -/
def progGhost : WatchProgress :=
  { itemId := "ghost", position := 500, duration := 900, completed := false,
    lastWatchedAt := 9 }

-- ─── Helper lemmas ───────────────────────────────────────────────────────────

theorem mem_jsInsert {α : Type} (cmp : α → α → Int) (x a : α) (l : List α) :
    a ∈ jsInsert cmp x l ↔ a = x ∨ a ∈ l := by
  induction l with
  | nil => simp [jsInsert]
  | cons y ys ih =>
    simp only [jsInsert]
    split
    · simp only [List.mem_cons, ih]
      tauto
    · simp only [List.mem_cons]
      try tauto

theorem mem_jsSort_aux {α : Type} (cmp : α → α → Int) (a : α) :
    ∀ (l acc : List α),
      a ∈ l.foldl (fun acc x => jsInsert cmp x acc) acc ↔ a ∈ acc ∨ a ∈ l := by
  intro l
  induction l with
  | nil => simp
  | cons y ys ih =>
    intro acc
    simp only [List.foldl_cons, ih, mem_jsInsert, List.mem_cons]
    tauto

theorem mem_jsSort {α : Type} (cmp : α → α → Int) (a : α) (l : List α) :
    a ∈ jsSort cmp l ↔ a ∈ l := by
  simp [jsSort, mem_jsSort_aux]

theorem find?_map_overwrite {κ α : Type} [DecidableEq κ] (k : κ) (v : α) :
    ∀ l : List (κ × α), l.any (fun p => p.1 = k) →
      (l.map (fun p => if p.1 = k then (k, v) else p)).find?
          (fun p => decide (p.1 = k)) = some (k, v) := by
  intro l
  induction l with
  | nil => simp
  | cons p ps ih =>
    intro h
    by_cases hp : p.1 = k
    · rw [List.map_cons, if_pos hp, List.find?_cons_of_pos _ (by simp)]
    · simp only [List.any_cons, Bool.or_eq_true, decide_eq_true_eq] at h
      have hps : ps.any (fun p => p.1 = k) := by
        rcases h with h | h
        · exact absurd h hp
        · exact h
      rw [List.map_cons, if_neg hp,
        List.find?_cons_of_neg _ (by simpa using hp)]
      exact ih hps

theorem find?_eq_none_of_not_any {κ α : Type} [DecidableEq κ] (k : κ) :
    ∀ l : List (κ × α), l.any (fun p => p.1 = k) = false →
      l.find? (fun p => decide (p.1 = k)) = none := by
  intro l
  induction l with
  | nil => simp
  | cons p ps ih =>
    intro h
    simp only [List.any_cons, Bool.or_eq_false_iff, decide_eq_false_iff_not] at h
    rw [List.find?_cons_of_neg _ (by simpa using h.1)]
    exact ih h.2

theorem alGet_alSet {κ α : Type} [DecidableEq κ] (l : List (κ × α)) (k : κ)
    (v : α) : alGet (alSet l k v) k = some v := by
  unfold alSet alGet
  split
  · rename_i h
    rw [find?_map_overwrite k v l h]
    rfl
  · rename_i h
    rw [List.find?_append, find?_eq_none_of_not_any k l (Bool.eq_false_iff.mpr h)]
    simp

-- ─── C9: deleting a MediaItem never touches watch progress ───────────────────

/-- C9: for every store state and id, `removeMediaItem` leaves the
`watchProgress` map (and the scan state) completely unchanged; a progress
record is removed only by the separate explicit `clearProgress`, which in
turn leaves `mediaItems` unchanged. -/
theorem removeMediaItem_frame (s : AppState) (id itemId : String) :
    (removeMediaItem s id).watchProgress = s.watchProgress ∧
    (removeMediaItem s id).scanState = s.scanState ∧
    (clearProgress s itemId).watchProgress = alRemove s.watchProgress itemId ∧
    (clearProgress s itemId).mediaItems = s.mediaItems :=
  ⟨rfl, rfl, rfl, rfl⟩

-- ─── C7: re-entrancy ─────────────────────────────────────────────────────────

/-- C7 counterexample: invoking `scanLibrary` directly while
`ScanState.status` is already `scanning` is NOT a no-op — the scan runs
and mutates the Catalog Store (here it deletes the only item). -/
theorem scanLibrary_not_guarded :
    sBusy.scanState.status = .scanning ∧
    (scanLibrary libMovies keysOn inpC7 sBusy w0).2.1.mediaItems = [] ∧
    sBusy.mediaItems ≠ [] := by
  refine ⟨rfl, by decide, by decide⟩

/-- C7 (amended): the status guard lives in the caller: `handleScan` (the
ScanBar entry point) is a no-op while a scan is `scanning` — it starts no
scan and performs no store mutation; `scanLibrary` itself has no guard. -/
theorem handleScan_noop_while_scanning (libraryId : Option String)
    (inps : Library → ScanInputs) (s : AppState) (w : World)
    (h : s.scanState.status = .scanning) :
    handleScan libraryId inps s w = (.ok (), s, w) := by
  unfold handleScan
  rw [if_pos h]

theorem handleScan_noop_while_scanning_witness :
    sBusy.scanState.status = .scanning ∧
    handleScan (some "L") (fun _ => inpC7) sBusy w0 = (.ok (), sBusy, w0) :=
  ⟨rfl, handleScan_noop_while_scanning (some "L") (fun _ => inpC7) sBusy w0 rfl⟩

-- ─── C8: TV grouping ─────────────────────────────────────────────────────────

/-- C8: `selectTvShows` buckets by the show key `showId ?? showTitle ??
title` (first conjunct: the produced show carries exactly that key), and on
the `{S1E1, S1E2, S2E1}` fixture under one show key it returns exactly one
show with two seasons, season 1 holding episodes 1 and 2 in that order. -/
theorem selectTvShows_grouping :
    (∀ (k lid : String) (ep : MediaItem), ep.libraryId = lid →
        ep.libraryType = .tv →
        (selectTvShows [(k, ep)] lid).map TvShow.showId =
          [ep.showId.getD (ep.showTitle.getD ep.title)]) ∧
    (selectTvShows tvItemsC8 "L").map
        (fun sh => (sh.title, sh.seasons.map (fun p =>
          (p.1, p.2.episodes.map (fun e => e.episode))))) =
      [("Show", [(1, [some 1, some 2]), (2, [some 1])])] := by
  constructor
  · intro k lid ep h1 h2
    simp [selectTvShows, h1, h2, tvStep, alUpdate, jsSort, jsInsert]
  · decide

theorem selectTvShows_grouping_witness :
    (selectTvShows [("e1", tvEp1)] "L").map TvShow.showId =
      [tvEp1.showId.getD (tvEp1.showTitle.getD tvEp1.title)] :=
  selectTvShows_grouping.1 "e1" "L" tvEp1 rfl rfl

-- ─── C10: continue-watching excludes dangling progress ───────────────────────

/-- C10: every entry returned by `selectInProgress` has its item id
present in the `mediaItems` map; consequently a progress record whose
item was deleted is excluded even when it meets every other condition. -/
theorem selectInProgress_requires_item (items : List (String × MediaItem))
    (progress : List (String × WatchProgress)) (limit : Nat)
    (x : Option MediaItem × WatchProgress)
    (hx : x ∈ selectInProgress items progress limit) :
    (alGet items x.2.itemId).isSome = true ∧
    ∀ p : WatchProgress, alGet items p.itemId = none → x.2 ≠ p := by
  unfold selectInProgress at hx
  obtain ⟨p, hp, rfl⟩ := List.mem_map.1 hx
  have hp' := List.take_subset _ _ hp
  rw [mem_jsSort] at hp'
  obtain ⟨-, hcond⟩ := List.mem_filter.1 hp'
  simp only [Bool.and_eq_true] at hcond
  refine ⟨hcond.2, ?_⟩
  intro q hq hne
  rw [show ((alGet items p.itemId, p) : Option MediaItem × WatchProgress).2 = p
      from rfl] at hne
  rw [hne, hq] at hcond
  simp at hcond

theorem selectInProgress_requires_item_witness :
    ((some itemA, progA) ∈
        selectInProgress [("A", itemA)] [("A", progA), ("ghost", progGhost)] 20) ∧
    (alGet [("A", itemA)] progA.itemId).isSome = true :=
  ⟨by decide,
    (selectInProgress_requires_item [("A", itemA)]
      [("A", progA), ("ghost", progGhost)] 20 (some itemA, progA)
      (by decide)).1⟩

-- ─── Throttle gate and retry lemmas ──────────────────────────────────────────

/-- `fetchRaw` appends exactly one request, stamped with the current time
and the given gate flag, and leaves `lastRequestTime` alone. -/
theorem fetchRaw_spec (o : Oracle) (u : String) (g : Bool) (w : World) :
    (fetchRaw o u g w).2.log = w.log ++ [⟨u, w.time, g⟩] ∧
    (fetchRaw o u g w).2.lastRequestTime = w.lastRequestTime := by
  unfold fetchRaw
  cases o w.log.length <;> exact ⟨rfl, rfl⟩

/-- Full characterisation of one passage through the throttle gate: the
issued request is gated, its issue time is the wait-adjusted clock, it is
at least `MIN_REQUEST_GAP` past the previous `lastRequestTime`, not before
the current clock, and it becomes the new `lastRequestTime`. -/
theorem rateLimitedFetch_spec (o : Oracle) (u : String) (w : World) :
    (rateLimitedFetch o u w).2.log =
      w.log ++ [⟨u, w.time + max 0 (MIN_REQUEST_GAP - (w.time - w.lastRequestTime)), true⟩] ∧
    (rateLimitedFetch o u w).2.lastRequestTime =
      w.time + max 0 (MIN_REQUEST_GAP - (w.time - w.lastRequestTime)) ∧
    w.lastRequestTime + MIN_REQUEST_GAP ≤
      w.time + max 0 (MIN_REQUEST_GAP - (w.time - w.lastRequestTime)) ∧
    w.time ≤ w.time + max 0 (MIN_REQUEST_GAP - (w.time - w.lastRequestTime)) := by
  have h0 : rateLimitedFetch o u w =
      fetchRaw o u true
        { time := w.time + max 0 (MIN_REQUEST_GAP - (w.time - w.lastRequestTime)),
          lastRequestTime :=
            w.time + max 0 (MIN_REQUEST_GAP - (w.time - w.lastRequestTime)),
          log := w.log } := rfl
  obtain ⟨h1, h2⟩ := fetchRaw_spec o u true
    { time := w.time + max 0 (MIN_REQUEST_GAP - (w.time - w.lastRequestTime)),
      lastRequestTime :=
        w.time + max 0 (MIN_REQUEST_GAP - (w.time - w.lastRequestTime)),
      log := w.log }
  refine ⟨?_, ?_, ?_, ?_⟩
  · rw [h0]
    exact h1
  · rw [h0]
    exact h2
  · have := le_max_left (0 : Int) (MIN_REQUEST_GAP - (w.time - w.lastRequestTime))
    have := le_max_right (0 : Int) (MIN_REQUEST_GAP - (w.time - w.lastRequestTime))
    omega
  · have := le_max_left (0 : Int) (MIN_REQUEST_GAP - (w.time - w.lastRequestTime))
    omega

/-- `fetchWithRetryAux` only ever appends to the request log. -/
theorem fwrAux_logExt (o : Oracle) (u : String) :
    ∀ (fuel i : Nat) (w : World),
      ∃ Δ, (fetchWithRetryAux o u i fuel w).2.log = w.log ++ Δ := by
  intro fuel
  induction fuel with
  | zero => exact fun i w => ⟨[], by simp [fetchWithRetryAux]⟩
  | succ fuel ih =>
    intro i w
    have hlog := (rateLimitedFetch_spec o u w).1
    rcases hrl : rateLimitedFetch o u w with ⟨res, w1⟩
    rw [hrl] at hlog
    cases res with
    | error e =>
      exact ⟨_, by simp only [fetchWithRetryAux, hrl]; exact hlog⟩
    | ok resp =>
      by_cases h429 : resp.status = 429
      · obtain ⟨Δ, hΔ⟩ := ih (i + 1) (sleep (2 ^ i * 2000) w1)
        refine ⟨[⟨u, w.time + max 0 (MIN_REQUEST_GAP - (w.time - w.lastRequestTime)), true⟩] ++ Δ, ?_⟩
        simp only [fetchWithRetryAux, hrl, if_pos h429]
        rw [hΔ]
        rw [show (sleep (2 ^ i * 2000) w1).log = w1.log from rfl, hlog,
          List.append_assoc]
      · refine ⟨[⟨u, w.time + max 0 (MIN_REQUEST_GAP - (w.time - w.lastRequestTime)), true⟩], ?_⟩
        simp only [fetchWithRetryAux, hrl, if_neg h429]
        exact hlog

/-- The first request issued by `fetchWithRetryAux` (if any) is not issued
before the clock at entry. -/
theorem fwrAux_firstSent (o : Oracle) (u : String) (fuel i : Nat) (w : World)
    (r : Request) (rest : List Request)
    (h : (fetchWithRetryAux o u i fuel w).2.log.drop w.log.length = r :: rest) :
    w.time ≤ r.sentAt := by
  cases fuel with
  | zero =>
    rw [show (fetchWithRetryAux o u i 0 w).2 = w from rfl, List.drop_length] at h
    cases h
  | succ fuel =>
    have hlog := (rateLimitedFetch_spec o u w).1
    have hle := (rateLimitedFetch_spec o u w).2.2.2
    rcases hrl : rateLimitedFetch o u w with ⟨res, w1⟩
    rw [hrl] at hlog
    cases res with
    | error e =>
      simp only [fetchWithRetryAux, hrl] at h
      rw [hlog, List.drop_left] at h
      cases h
      exact hle
    | ok resp =>
      by_cases h429 : resp.status = 429
      · simp only [fetchWithRetryAux, hrl, if_pos h429] at h
        obtain ⟨Δ, hΔ⟩ := fwrAux_logExt o u fuel (i + 1) (sleep (2 ^ i * 2000) w1)
        rw [hΔ, show (sleep (2 ^ i * 2000) w1).log = w1.log from rfl, hlog,
          List.append_assoc, List.drop_left] at h
        rw [show ([⟨u, w.time + max 0 (MIN_REQUEST_GAP - (w.time - w.lastRequestTime)), true⟩] ++ Δ : List Request) =
          ⟨u, w.time + max 0 (MIN_REQUEST_GAP - (w.time - w.lastRequestTime)), true⟩ :: Δ from rfl] at h
        cases h
        exact hle
      · simp only [fetchWithRetryAux, hrl, if_neg h429] at h
        rw [hlog, List.drop_left] at h
        cases h
        exact hle

/-- Under an always-rate-limiting provider, `fetchWithRetryAux` makes
exactly `fuel` attempts, each separated from the next by at least the
exponential backoff `2^k * 2000`, and then throws `Max retries
exceeded`. -/
theorem fwrAux_429 (o : Oracle) (u : String) (h : always429 o) :
    ∀ (fuel i : Nat) (w : World),
      (fetchWithRetryAux o u i fuel w).1 = .error "Max retries exceeded" ∧
      (fetchWithRetryAux o u i fuel w).2.log.length = w.log.length + fuel ∧
      ExpGaps i (((fetchWithRetryAux o u i fuel w).2.log.drop w.log.length).map
        (fun r => r.sentAt)) := by
  intro fuel
  induction fuel with
  | zero =>
    intro i w
    refine ⟨rfl, by simp [fetchWithRetryAux], ?_⟩
    rw [show (fetchWithRetryAux o u i 0 w).2 = w from rfl, List.drop_length]
    trivial
  | succ fuel ih =>
    intro i w
    obtain ⟨r, hor, h429⟩ := h w.log.length
    have hrl : rateLimitedFetch o u w =
        (.ok r, { time := w.time + max 0 (MIN_REQUEST_GAP - (w.time - w.lastRequestTime)) + r.elapsed,
                  lastRequestTime := w.time + max 0 (MIN_REQUEST_GAP - (w.time - w.lastRequestTime)),
                  log := w.log ++ [⟨u, w.time + max 0 (MIN_REQUEST_GAP - (w.time - w.lastRequestTime)), true⟩] }) := by
      unfold rateLimitedFetch sleep fetchRaw
      simp only [List.length_append]
      rw [show ({ w with time := w.time + max 0 (MIN_REQUEST_GAP - (w.time - w.lastRequestTime)) } : World).log = w.log from rfl]
      rw [hor]
    set t : Int := w.time + max 0 (MIN_REQUEST_GAP - (w.time - w.lastRequestTime)) with ht
    set W1 : World :=
      { time := t + r.elapsed, lastRequestTime := t,
        log := w.log ++ [⟨u, t, true⟩] } with hW1
    set W2 : World := sleep (2 ^ i * 2000) W1 with hW2
    have key : fetchWithRetryAux o u i (fuel + 1) w =
        fetchWithRetryAux o u (i + 1) fuel W2 := by
      simp only [fetchWithRetryAux, hrl, if_pos h429]
    obtain ⟨ihr, ihlen, ihgaps⟩ := ih (i + 1) W2
    have hW2log : W2.log = w.log ++ [⟨u, t, true⟩] := rfl
    obtain ⟨Δ, hΔ⟩ := fwrAux_logExt o u fuel (i + 1) W2
    refine ⟨by rw [key]; exact ihr, ?_, ?_⟩
    · rw [key, ihlen, hW2log]
      simp
      omega
    · rw [key, hΔ, hW2log, List.append_assoc, List.drop_left]
      rw [hΔ, hW2log, List.drop_left] at ihgaps
      show ExpGaps i ((⟨u, t, true⟩ :: Δ).map (fun r => r.sentAt))
      rw [List.map_cons]
      cases hΔ2 : Δ with
      | nil => trivial
      | cons r2 Δ2 =>
        rw [hΔ2, List.map_cons] at ihgaps
        rw [List.map_cons]
        refine ⟨?_, ihgaps⟩
        have hsent := fwrAux_firstSent o u fuel (i + 1) W2 r2 Δ2
          (by rw [hΔ, List.drop_left, hΔ2])
        have hW2time : W2.time = t + r.elapsed + 2 ^ i * 2000 := rfl
        rw [hW2time] at hsent
        have hel : (0 : Int) ≤ r.elapsed := Int.natCast_nonneg _
        show t + 2 ^ i * 2000 ≤ r2.sentAt
        omega

-- ─── C5: bounded retry with exponential backoff ──────────────────────────────

/-- C5: against a provider that rate-limits every request,
`fetchWithRetry` with the configured `retries = 3` issues exactly three
requests, with exponentially growing backoff between consecutive attempts
(at least `2^k * 2000` ms after attempt `k`), and then throws
`Max retries exceeded`; the attempt count equals the fuel, so the loop is
bounded. -/
theorem fetchWithRetry_always429 (o : Oracle) (u : String) (w : World)
    (h : always429 o) :
    (fetchWithRetry o u 3 w).1 = .error "Max retries exceeded" ∧
    (fetchWithRetry o u 3 w).2.log.length = w.log.length + 3 ∧
    ExpGaps 0 (((fetchWithRetry o u 3 w).2.log.drop w.log.length).map
      (fun r => r.sentAt)) :=
  fwrAux_429 o u h 3 0 w

theorem fetchWithRetry_always429_witness :
    always429 oracle429 ∧
    (fetchWithRetry oracle429 "u" 3 w0).1 = .error "Max retries exceeded" ∧
    (fetchWithRetry oracle429 "u" 3 w0).2.log.length = w0.log.length + 3 :=
  ⟨fun _ => ⟨{ status := 429, elapsed := 0, body := .empty }, rfl, rfl⟩,
   (fetchWithRetry_always429 oracle429 "u" w0 (fun _ => ⟨_, rfl, rfl⟩)).1,
   (fetchWithRetry_always429 oracle429 "u" w0 (fun _ => ⟨_, rfl, rfl⟩)).2.1⟩

-- ─── Gate invariant preservation ─────────────────────────────────────────────

theorem gateOK_sleep (ms : Int) (w : World) (h : gateOK w) :
    gateOK (sleep ms w) := h

theorem gateOK_fetchRaw_ungated (o : Oracle) (u : String) (w : World)
    (h : gateOK w) : gateOK (fetchRaw o u false w).2 := by
  obtain ⟨h1, h2⟩ := fetchRaw_spec o u false w
  have hg : gateTimes (fetchRaw o u false w).2 = gateTimes w := by
    unfold gateTimes
    rw [h1, List.filter_append]
    simp
  exact ⟨hg ▸ h.1, by rw [hg, h2]; exact h.2⟩

theorem gateOK_rateLimitedFetch (o : Oracle) (u : String) (w : World)
    (h : gateOK w) : gateOK (rateLimitedFetch o u w).2 := by
  obtain ⟨hlog, hlast, hgap, -⟩ := rateLimitedFetch_spec o u w
  have hM : MIN_REQUEST_GAP = 120 := rfl
  obtain ⟨hchain, hbound⟩ := h
  have hg : gateTimes (rateLimitedFetch o u w).2 =
      gateTimes w ++ [w.time + max 0 (MIN_REQUEST_GAP - (w.time - w.lastRequestTime))] := by
    unfold gateTimes
    rw [hlog, List.filter_append]
    simp
  constructor
  · rw [hg]
    apply List.chain'_append.2
    refine ⟨hchain, List.chain'_singleton _, ?_⟩
    intro x hx y hy
    simp only [List.head?_cons, Option.mem_def, Option.some.injEq] at hy
    subst hy
    have hxmem : x ∈ gateTimes w := by
      obtain ⟨hne, rfl⟩ := List.mem_getLast?_eq_getLast hx
      exact List.getLast_mem hne
    have := hbound x hxmem
    omega
  · rw [hg, hlast]
    intro x hx
    rcases List.mem_append.1 hx with hx | hx
    · have := hbound x hx
      omega
    · simp only [List.mem_singleton] at hx
      subst hx
      exact le_refl _

theorem gateOK_fwrAux (o : Oracle) (u : String) :
    ∀ (fuel i : Nat) (w : World), gateOK w →
      gateOK (fetchWithRetryAux o u i fuel w).2 := by
  intro fuel
  induction fuel with
  | zero => exact fun i w h => h
  | succ fuel ih =>
    intro i w h
    have h1 := gateOK_rateLimitedFetch o u w h
    rcases hrl : rateLimitedFetch o u w with ⟨res, w1⟩
    rw [hrl] at h1
    cases res with
    | error e => simpa only [fetchWithRetryAux, hrl] using h1
    | ok resp =>
      by_cases h429 : resp.status = 429
      · simp only [fetchWithRetryAux, hrl, if_pos h429]
        exact ih (i + 1) _ (gateOK_sleep _ _ h1)
      · simpa only [fetchWithRetryAux, hrl, if_neg h429] using h1

/-- All requests issued by `fetchWithRetryAux` go through the gate. -/
theorem fwrAux_gated (o : Oracle) (u : String) :
    ∀ (fuel i : Nat) (w : World),
      ((fetchWithRetryAux o u i fuel w).2.log.drop w.log.length).all
        (fun r => r.viaGate) = true := by
  intro fuel
  induction fuel with
  | zero =>
    intro i w
    rw [show (fetchWithRetryAux o u i 0 w).2 = w from rfl, List.drop_length]
    rfl
  | succ fuel ih =>
    intro i w
    have hlog := (rateLimitedFetch_spec o u w).1
    rcases hrl : rateLimitedFetch o u w with ⟨res, w1⟩
    rw [hrl] at hlog
    cases res with
    | error e =>
      simp only [fetchWithRetryAux, hrl]
      rw [hlog, List.drop_left]
      rfl
    | ok resp =>
      by_cases h429 : resp.status = 429
      · simp only [fetchWithRetryAux, hrl, if_pos h429]
        have := ih (i + 1) (sleep (2 ^ i * 2000) w1)
        obtain ⟨Δ, hΔ⟩ := fwrAux_logExt o u fuel (i + 1) (sleep (2 ^ i * 2000) w1)
        rw [hΔ] at this ⊢
        rw [show (sleep (2 ^ i * 2000) w1).log = w1.log from rfl] at this ⊢
        rw [hlog, List.append_assoc, List.drop_left]
        rw [hlog, List.drop_left] at this
        simpa using this
      · simp only [fetchWithRetryAux, hrl, if_neg h429]
        rw [hlog, List.drop_left]
        rfl

theorem fetchTmdbMovie_world (o : Oracle) (t : String) (y : Option Int)
    (w : World) :
    (fetchTmdbMovie o t y w).2 = (fetchWithRetry o (movieSearchUrl t y) 3 w).2 := by
  rcases hf : fetchWithRetry o (movieSearchUrl t y) 3 w with ⟨res, w1⟩
  simp only [fetchTmdbMovie, hf]
  cases res with
  | error e => rfl
  | ok resp =>
    dsimp only
    split
    · rfl
    · split <;> rfl

theorem fetchMusicBrainz_world (o : Oracle) (t : String) (w : World) :
    (fetchMusicBrainz o t w).2 = (fetchRaw o (mbUrl t) false w).2 := by
  rcases hf : fetchRaw o (mbUrl t) false w with ⟨res, w1⟩
  simp only [fetchMusicBrainz, hf]
  cases res with
  | error e => rfl
  | ok resp =>
    dsimp only
    split
    · rfl
    · split <;> rfl

theorem fetchOpenLibrary_world (o : Oracle) (t : String) (w : World) :
    (fetchOpenLibrary o t w).2 = (fetchRaw o (olUrl t) false w).2 := by
  rcases hf : fetchRaw o (olUrl t) false w with ⟨res, w1⟩
  simp only [fetchOpenLibrary, hf]
  cases res with
  | error e => rfl
  | ok resp =>
    dsimp only
    split
    · rfl
    · split <;> rfl

theorem gateOK_fetchTmdbMovie (o : Oracle) (t : String) (y : Option Int)
    (w : World) (h : gateOK w) : gateOK (fetchTmdbMovie o t y w).2 := by
  rw [fetchTmdbMovie_world]
  exact gateOK_fwrAux o (movieSearchUrl t y) 3 0 w h

theorem gateOK_fetchMusicBrainz (o : Oracle) (t : String) (w : World)
    (h : gateOK w) : gateOK (fetchMusicBrainz o t w).2 := by
  rw [fetchMusicBrainz_world]
  exact gateOK_fetchRaw_ungated o (mbUrl t) w h

theorem gateOK_fetchOpenLibrary (o : Oracle) (t : String) (w : World)
    (h : gateOK w) : gateOK (fetchOpenLibrary o t w).2 := by
  rw [fetchOpenLibrary_world]
  exact gateOK_fetchRaw_ungated o (olUrl t) w h

theorem gateOK_fetchTmdbTv (o : Oracle) (t : String) (se ep : Option Int)
    (w : World) (h : gateOK w) : gateOK (fetchTmdbTv o t se ep w).2 := by
  have h1 : gateOK (fetchWithRetry o (tvSearchUrl t) 3 w).2 :=
    gateOK_fwrAux o (tvSearchUrl t) 3 0 w h
  rcases hf : fetchWithRetry o (tvSearchUrl t) 3 w with ⟨res, w1⟩
  rw [hf] at h1
  simp only [fetchTmdbTv, hf]
  cases res with
  | error e => exact h1
  | ok resp =>
    dsimp only
    split
    · exact h1
    · split
      · exact h1
      · rename_i sh _
        have h2 : gateOK (fetchWithRetry o (tvEpisodeUrl sh.id se ep) 3 w1).2 :=
          gateOK_fwrAux o (tvEpisodeUrl sh.id se ep) 3 0 w1 h1
        rcases hf2 : fetchWithRetry o (tvEpisodeUrl sh.id se ep) 3 w1 with ⟨res2, w2⟩
        rw [hf2] at h2
        split
        · cases res2 with
          | error e => exact h2
          | ok epResp =>
            dsimp only
            split
            · split <;> exact h2
            · exact h2
        · exact h1

theorem gateOK_metaFor (lib : Library) (keys : ApiKeys) (o : Oracle)
    (parsed : ParsedTitle) (w : World) (h : gateOK w) :
    gateOK (metaFor lib keys o parsed w).2 := by
  unfold metaFor
  cases lib.type with
  | movies =>
    dsimp only
    by_cases hk : keys.tmdb ≠ ""
    · rw [if_pos hk]
      exact gateOK_fetchTmdbMovie o parsed.title parsed.year w h
    · rw [if_neg hk]
      exact h
  | tv =>
    dsimp only
    by_cases hk : keys.tmdb ≠ ""
    · rw [if_pos hk]
      exact gateOK_fetchTmdbTv o parsed.title parsed.season parsed.episode w h
    · rw [if_neg hk]
      exact h
  | music => exact gateOK_fetchMusicBrainz o parsed.title w h
  | books => exact gateOK_fetchOpenLibrary o parsed.title w h
  | audiobooks => exact gateOK_fetchOpenLibrary o parsed.title w h
  | adult =>
    dsimp only
    by_cases hk : keys.theporndb ≠ ""
    · rw [if_pos hk]
      have h1 : gateOK (fetchWithRetry o (sceneUrl parsed.title) 3 w).2 :=
        gateOK_fwrAux o (sceneUrl parsed.title) 3 0 w h
      rcases hf : fetchWithRetry o (sceneUrl parsed.title) 3 w with ⟨res, w1⟩
      rw [hf] at h1
      cases res with
      | error e => exact h1
      | ok resp =>
        dsimp only
        split
        · split <;> exact h1
        · exact h1
    · rw [if_neg hk]
      exact h

theorem gateOK_processFiles (lib : Library) (keys : ApiKeys)
    (inp : ScanInputs) (total : Nat) :
    ∀ (files : List DiscoveredFile) (idx : Nat) (acc : List MediaItem)
      (s : AppState) (w : World), gateOK w →
      gateOK (processFiles lib keys inp total files idx acc s w).2.2 := by
  intro files
  induction files with
  | nil => exact fun idx acc s w h => h
  | cons f rest ih =>
    intro idx acc s w h
    simp only [processFiles]
    cases hp : inp.parse f.filename with
    | error e => exact h
    | ok parsed =>
      dsimp only
      cases hh : inp.hash f.remote_path with
      | error e => exact h
      | ok id =>
        dsimp only
        have hm := gateOK_metaFor lib keys inp.http parsed w h
        rcases hmf : metaFor lib keys inp.http parsed w with ⟨meta, w2⟩
        rw [hmf] at hm
        dsimp only
        exact ih (idx + 1) _ _ w2 hm

theorem gateOK_scanCore (lib : Library) (keys : ApiKeys) (inp : ScanInputs)
    (items0 : List (String × MediaItem)) (s : AppState) (w : World)
    (h : gateOK w) : gateOK (scanCore lib keys inp items0 s w).2.2 := by
  unfold scanCore
  cases hl : inp.listing with
  | error e => exact h
  | ok result =>
    dsimp only
    have hp := gateOK_processFiles lib keys inp result.new_files.length
      result.new_files 0 [] (applyRemovals items0 result.removed_paths s) w h
    rcases hpf : processFiles lib keys inp result.new_files.length
        result.new_files 0 [] (applyRemovals items0 result.removed_paths s) w
      with ⟨res, s2, w2⟩
    rw [hpf] at hp
    cases res with
    | error e => exact hp
    | ok newItems => exact hp

theorem gateOK_scanLibrary (lib : Library) (keys : ApiKeys)
    (inp : ScanInputs) (s : AppState) (w : World) (h : gateOK w) :
    gateOK (scanLibrary lib keys inp s w).2.2 := by
  unfold scanLibrary
  dsimp only
  rcases hsc : scanCore lib keys inp s.mediaItems
      (setScanState s
        { status := some .scanning
          currentLibrary := some (some lib.name)
          progress := some (some 0)
          newItemsFound := some 0 }) w with ⟨res, s2, w2⟩
  have hc := gateOK_scanCore lib keys inp s.mediaItems
    (setScanState s
      { status := some .scanning
        currentLibrary := some (some lib.name)
        progress := some (some 0)
        newItemsFound := some 0 }) w h
  rw [hsc] at hc
  cases res with
  | error e => exact hc
  | ok r => exact hc

theorem fetchMusicBrainz_ungated (o : Oracle) (t : String) (w : World) :
    ((fetchMusicBrainz o t w).2.log.drop w.log.length).all
      (fun r => !r.viaGate) = true := by
  rw [fetchMusicBrainz_world, (fetchRaw_spec o (mbUrl t) false w).1,
    List.drop_left]
  rfl

theorem fetchOpenLibrary_ungated (o : Oracle) (t : String) (w : World) :
    ((fetchOpenLibrary o t w).2.log.drop w.log.length).all
      (fun r => !r.viaGate) = true := by
  rw [fetchOpenLibrary_world, (fetchRaw_spec o (olUrl t) false w).1,
    List.drop_left]
  rfl

-- ─── C4: the throttle gate is not global across providers ────────────────────

/-- C4 counterexample: immediately after a gated request issued at t=1000,
`fetchMusicBrainz` issues its request through plain `fetch` at the same
instant — an inter-request gap of 0 < `MIN_REQUEST_GAP`, so not every
provider request passes through the global throttle gate. -/
theorem musicbrainz_bypasses_gate :
    (fetchMusicBrainz oracleMB200 "t"
        (rateLimitedFetch oracleMB200 "u1"
          { time := 1000, lastRequestTime := 0, log := [] }).2).2.log.map
      (fun r => (r.sentAt, r.viaGate)) = [(1000, true), (1000, false)] ∧
    ¬((1000 : Int) + MIN_REQUEST_GAP ≤ 1000) :=
  ⟨by decide, by decide⟩

/-- C4 (amended): requests issued through `rateLimitedFetch` /
`fetchWithRetry` — i.e. all TMDB and ThePornDB requests — pass through the
single throttle gate, and consecutive gated requests are at least
`MIN_REQUEST_GAP` apart (the `gateOK` invariant is preserved by a whole
`scanLibrary` run); but `fetchMusicBrainz` and `fetchOpenLibrary` call
plain `fetch`, bypassing the gate, so the minimum spacing is *not* global
across all four providers. -/
theorem throttle_gate_not_global :
    (∀ (lib : Library) (keys : ApiKeys) (inp : ScanInputs) (s : AppState)
        (w : World), gateOK w → gateOK (scanLibrary lib keys inp s w).2.2) ∧
    (∀ (o : Oracle) (u : String) (fuel i : Nat) (w : World),
        ((fetchWithRetryAux o u i fuel w).2.log.drop w.log.length).all
          (fun r => r.viaGate) = true) ∧
    (∀ (o : Oracle) (t : String) (w : World),
        ((fetchMusicBrainz o t w).2.log.drop w.log.length).all
          (fun r => !r.viaGate) = true) ∧
    (∀ (o : Oracle) (t : String) (w : World),
        ((fetchOpenLibrary o t w).2.log.drop w.log.length).all
          (fun r => !r.viaGate) = true) :=
  ⟨fun lib keys inp s w h => gateOK_scanLibrary lib keys inp s w h,
   fun o u fuel i w => fwrAux_gated o u fuel i w,
   fetchMusicBrainz_ungated, fetchOpenLibrary_ungated⟩

theorem throttle_gate_not_global_witness :
    gateOK w0 ∧ gateOK (scanLibrary libMovies keysOn inpC3 ({} : AppState) w0).2.2 := by
  have h0 : gateOK w0 := by
    constructor
    · exact List.chain'_nil
    · intro t ht
      simp [gateTimes, w0] at ht
  exact ⟨h0, throttle_gate_not_global.1 libMovies keysOn inpC3 {} w0 h0⟩

-- ─── Behavioural lemmas for the scan pipeline ────────────────────────────────

/-- The removals loop touches only `mediaItems`. -/
theorem applyRemovals_frame (items0 : List (String × MediaItem)) :
    ∀ (paths : List String) (s : AppState),
      (applyRemovals items0 paths s).stateLog = s.stateLog ∧
      (applyRemovals items0 paths s).scanState = s.scanState ∧
      (applyRemovals items0 paths s).watchProgress = s.watchProgress := by
  intro paths
  induction paths with
  | nil => exact fun s => ⟨rfl, rfl, rfl⟩
  | cons rp rest ih =>
    intro s
    simp only [applyRemovals, List.foldl_cons]
    cases hfind : (items0.map Prod.snd).find? (fun i => i.remotePath = rp) with
    | none => exact ih s
    | some item => exact ih (removeMediaItem s item.id)

/-- When every per-file Tauri command succeeds, the per-file loop returns
`ok` with one accumulated item per file and appends one progress entry
`round(k/total*100)` to the observer log per file (`k` = files processed
before it). -/
theorem processFiles_ok (lib : Library) (keys : ApiKeys) (inp : ScanInputs)
    (total : Nat) :
    ∀ (files : List DiscoveredFile) (idx : Nat) (acc : List MediaItem)
      (s : AppState) (w : World),
      (∀ f ∈ files, ∃ p, inp.parse f.filename = .ok p) →
      (∀ f ∈ files, ∃ i, inp.hash f.remote_path = .ok i) →
      ∃ acc' s' w',
        processFiles lib keys inp total files idx acc s w = (.ok acc', s', w') ∧
        acc'.length = acc.length + files.length ∧
        s'.stateLog.map (fun sc => sc.progress) =
          s.stateLog.map (fun sc => sc.progress) ++
            (List.range' idx files.length).map
              (fun k => some (jsRound100 k total)) := by
  intro files
  induction files with
  | nil =>
    intro idx acc s w _ _
    exact ⟨acc, s, w, rfl, by simp, by simp⟩
  | cons f rest ih =>
    intro idx acc s w hp hh
    obtain ⟨parsed, hparsed⟩ := hp f (List.mem_cons_self f rest)
    obtain ⟨id, hid⟩ := hh f (List.mem_cons_self f rest)
    rcases hmf : metaFor lib keys inp.http parsed w with ⟨meta, w2⟩
    have heq0 : processFiles lib keys inp total (f :: rest) idx acc s w =
        processFiles lib keys inp total rest (idx + 1)
          (acc ++ [mergeItem (mkBase lib f parsed id w.time) meta])
          (if (acc ++ [mergeItem (mkBase lib f parsed id w.time) meta]).length % 20 = 0 then
            bulkUpsertMediaItems
              (setScanState s
                { progress := some (some (jsRound100 idx total))
                  newItemsFound := some idx })
              (acc ++ [mergeItem (mkBase lib f parsed id w.time) meta])
          else
            setScanState s
              { progress := some (some (jsRound100 idx total))
                newItemsFound := some idx }) w2 := by
      simp only [processFiles, hparsed, hid, hmf]
    obtain ⟨acc', s', w', heq, hlen, htrace⟩ :=
      ih (idx + 1) (acc ++ [mergeItem (mkBase lib f parsed id w.time) meta])
        (if (acc ++ [mergeItem (mkBase lib f parsed id w.time) meta]).length % 20 = 0 then
          bulkUpsertMediaItems
            (setScanState s
              { progress := some (some (jsRound100 idx total))
                newItemsFound := some idx })
            (acc ++ [mergeItem (mkBase lib f parsed id w.time) meta])
        else
          setScanState s
            { progress := some (some (jsRound100 idx total))
              newItemsFound := some idx }) w2
        (fun g hg => hp g (List.mem_cons_of_mem f hg))
        (fun g hg => hh g (List.mem_cons_of_mem f hg))
    refine ⟨acc', s', w', by rw [heq0, heq], ?_, ?_⟩
    · rw [hlen]
      simp only [List.length_append, List.length_cons, List.length_nil]
      omega
    · rw [htrace]
      have hmid : (if (acc ++ [mergeItem (mkBase lib f parsed id w.time) meta]).length % 20 = 0 then
            bulkUpsertMediaItems
              (setScanState s
                { progress := some (some (jsRound100 idx total))
                  newItemsFound := some idx })
              (acc ++ [mergeItem (mkBase lib f parsed id w.time) meta])
          else
            setScanState s
              { progress := some (some (jsRound100 idx total))
                newItemsFound := some idx }).stateLog =
          s.stateLog ++ [applyPScan s.scanState
            { progress := some (some (jsRound100 idx total))
              newItemsFound := some idx }] := by
        split <;> rfl
      rw [hmid]
      rw [List.map_append, List.length_cons, List.range'_succ, List.map_cons,
        List.append_assoc]
      rfl

theorem setScanState_stateLog (s : AppState) (p : PScanState) :
    (setScanState s p).stateLog = s.stateLog ++ [applyPScan s.scanState p] :=
  rfl

/-- A scan whose listing and per-file commands all succeed returns `ok`
with one new item per file, and its observer log gains the progress
sequence `0, round(0/total·100), …, round((total-1)/total·100), 100`. -/
theorem scanLibrary_ok_trace (lib : Library) (keys : ApiKeys)
    (inp : ScanInputs) (s : AppState) (w : World) (res : LibraryScanResult)
    (hl : inp.listing = .ok res)
    (hp : ∀ f ∈ res.new_files, ∃ p, inp.parse f.filename = .ok p)
    (hh : ∀ f ∈ res.new_files, ∃ i, inp.hash f.remote_path = .ok i) :
    ∃ s' w',
      scanLibrary lib keys inp s w =
        (.ok (res.new_files.length, res.removed_paths.length), s', w') ∧
      s'.stateLog.map (fun sc => sc.progress) =
        s.stateLog.map (fun sc => sc.progress) ++
          (some 0 :: ((List.range' 0 res.new_files.length).map
              (fun k => some (jsRound100 k res.new_files.length)) ++
            [some 100])) := by
  obtain ⟨acc', s2, w2, hpf, hlen, htrace⟩ :=
    processFiles_ok lib keys inp res.new_files.length res.new_files 0 []
      (applyRemovals s.mediaItems res.removed_paths
        (setScanState s
          { status := some .scanning
            currentLibrary := some (some lib.name)
            progress := some (some 0)
            newItemsFound := some 0 })) w hp hh
  have hlen' : acc'.length = res.new_files.length := by
    rw [hlen]
    simp
  have hcore : scanCore lib keys inp s.mediaItems
      (setScanState s
        { status := some .scanning
          currentLibrary := some (some lib.name)
          progress := some (some 0)
          newItemsFound := some 0 }) w =
      (.ok (acc'.length, res.removed_paths.length),
        setScanState
          (if acc'.length > 0 then bulkUpsertMediaItems s2 acc' else s2)
          { status := some .idle
            progress := some (some 100)
            lastScanAt := some (some w2.time)
            newItemsFound := some acc'.length
            currentLibrary := some none }, w2) := by
    unfold scanCore
    rw [hl]
    dsimp only
    rw [hpf]
  have hlib : scanLibrary lib keys inp s w =
      (.ok (acc'.length, res.removed_paths.length),
        setScanState
          (if acc'.length > 0 then bulkUpsertMediaItems s2 acc' else s2)
          { status := some .idle
            progress := some (some 100)
            lastScanAt := some (some w2.time)
            newItemsFound := some acc'.length
            currentLibrary := some none }, w2) := by
    unfold scanLibrary
    dsimp only
    rw [hcore]
  refine ⟨setScanState
      (if acc'.length > 0 then bulkUpsertMediaItems s2 acc' else s2)
      { status := some .idle
        progress := some (some 100)
        lastScanAt := some (some w2.time)
        newItemsFound := some acc'.length
        currentLibrary := some none }, w2, ?_, ?_⟩
  · rw [hlib, hlen']
  · have hflog : (if acc'.length > 0 then bulkUpsertMediaItems s2 acc' else s2).stateLog
        = s2.stateLog := by
      split <;> rfl
    rw [setScanState_stateLog, List.map_append, hflog, htrace,
      (applyRemovals_frame s.mediaItems res.removed_paths _).1,
      setScanState_stateLog, List.map_append, List.append_assoc,
      List.append_assoc]
    rfl

-- ─── C1: error handling and the Catalog Store ────────────────────────────────

theorem scanLibrary_listing_error (lib : Library) (keys : ApiKeys)
    (inp : ScanInputs) (s : AppState) (w : World) (e : String)
    (hl : inp.listing = .error e) :
    scanLibrary lib keys inp s w =
      (.error e,
        setScanState
          (setScanState s
            { status := some .scanning
              currentLibrary := some (some lib.name)
              progress := some (some 0)
              newItemsFound := some 0 })
          { status := some .error
            lastError := some (some e)
            currentLibrary := some none }, w) := by
  unfold scanLibrary scanCore
  rw [hl]

/-- C1 counterexample: listing succeeds with one removed path and one new
file, and the title-parse command then rejects.  The scan errors (status
`error`, message recorded) but the Catalog Store is NOT left as it was:
the removed item is already gone, with nothing replacing it — a partial
delete-without-replace. -/
theorem scan_error_partial_delete :
    (scanLibrary libMovies keysOn inpC1 sA w0).1 = .error "boom" ∧
    (scanLibrary libMovies keysOn inpC1 sA w0).2.1.mediaItems = [] ∧
    sA.mediaItems ≠ [] ∧
    (scanLibrary libMovies keysOn inpC1 sA w0).2.1.scanState.status = .error :=
  ⟨rfl, by decide, by decide, rfl⟩

/-- C1 (amended): on any thrown error `scanLibrary` sets `status` to
`error` with the message in `lastError`; the Catalog Store is unchanged
when the remote-listing call itself fails, but deletions (and flushed
batches) already applied before a later failing step remain — the store is
not rolled back. -/
theorem scanLibrary_error_handling :
    (∀ (lib : Library) (keys : ApiKeys) (inp : ScanInputs) (s : AppState)
        (w : World) (e : String), inp.listing = .error e →
        (scanLibrary lib keys inp s w).1 = .error e ∧
        (scanLibrary lib keys inp s w).2.1.mediaItems = s.mediaItems ∧
        (scanLibrary lib keys inp s w).2.1.watchProgress = s.watchProgress ∧
        (scanLibrary lib keys inp s w).2.1.scanState.status = .error ∧
        (scanLibrary lib keys inp s w).2.1.scanState.lastError = some e) ∧
    (∀ (lib : Library) (keys : ApiKeys) (inp : ScanInputs) (s : AppState)
        (w : World) (e : String),
        (scanLibrary lib keys inp s w).1 = .error e →
        (scanLibrary lib keys inp s w).2.1.scanState.status = .error ∧
        (scanLibrary lib keys inp s w).2.1.scanState.lastError = some e) := by
  constructor
  · intro lib keys inp s w e hl
    rw [scanLibrary_listing_error lib keys inp s w e hl]
    exact ⟨rfl, rfl, rfl, rfl, rfl⟩
  · intro lib keys inp s w e
    unfold scanLibrary
    dsimp only
    rcases hsc : scanCore lib keys inp s.mediaItems
        (setScanState s
          { status := some .scanning
            currentLibrary := some (some lib.name)
            progress := some (some 0)
            newItemsFound := some 0 }) w with ⟨res, s2, w2⟩
    cases res with
    | ok r =>
      intro h
      simp at h
    | error e' =>
      intro h
      have he : e' = e := by
        simpa using h
      subst he
      exact ⟨rfl, rfl⟩

theorem scanLibrary_error_handling_witness :
    (scanLibrary libMovies keysOn
        { http := oracleFail, listing := .error "down",
          parse := fun f => .ok { title := f }, hash := fun p => .ok p }
        sA w0).1 = .error "down" ∧
    (scanLibrary libMovies keysOn
        { http := oracleFail, listing := .error "down",
          parse := fun f => .ok { title := f }, hash := fun p => .ok p }
        sA w0).2.1.mediaItems = sA.mediaItems :=
  ⟨(scanLibrary_error_handling.1 libMovies keysOn
      { http := oracleFail, listing := .error "down",
        parse := fun f => .ok { title := f }, hash := fun p => .ok p }
      sA w0 "down" rfl).1,
   (scanLibrary_error_handling.1 libMovies keysOn
      { http := oracleFail, listing := .error "down",
        parse := fun f => .ok { title := f }, hash := fun p => .ok p }
      sA w0 "down" rfl).2.1⟩

-- ─── C3: progress formula ────────────────────────────────────────────────────

/-- C3: during a successful scan with `total > 0` new files, the observer
sees the progress values `0`, then `round(k/total*100)` for `k` files
processed so far (`k = 0, …, total-1`), and finally `100` after the last
file; since `round(total/total*100) = 100`, the value reported after the
last file is exactly the claimed formula at `index = total`. -/
theorem scan_progress_formula (lib : Library) (keys : ApiKeys)
    (inp : ScanInputs) (s : AppState) (w : World) (res : LibraryScanResult)
    (total : Nat) (hl : inp.listing = .ok res)
    (htot : res.new_files.length = total) (hpos : 0 < total)
    (hp : ∀ f ∈ res.new_files, ∃ p, inp.parse f.filename = .ok p)
    (hh : ∀ f ∈ res.new_files, ∃ i, inp.hash f.remote_path = .ok i) :
    (((scanLibrary lib keys inp s w).2.1.stateLog.map
        (fun sc => sc.progress)).drop s.stateLog.length =
      some 0 :: ((List.range total).map (fun k => some (jsRound100 k total)) ++
        [some 100])) ∧
    jsRound100 total total = 100 := by
  obtain ⟨s', w', hlib, htr⟩ := scanLibrary_ok_trace lib keys inp s w res hl hp hh
  subst htot
  constructor
  · rw [hlib]
    dsimp only
    rw [htr]
    have hlen : s.stateLog.length =
        (s.stateLog.map (fun sc => sc.progress)).length := by
      rw [List.length_map]
    rw [hlen, List.drop_left, List.range_eq_range']
  · unfold jsRound100
    rw [Nat.max_eq_left hpos]
    rw [show 200 * res.new_files.length + res.new_files.length =
        res.new_files.length * 201 by ring,
      show 2 * res.new_files.length = res.new_files.length * 2 by ring,
      Nat.mul_div_mul_left _ _ hpos]

theorem scan_progress_formula_witness :
    ((scanLibrary libMovies keysOn inpC3 ({} : AppState) w0).2.1.stateLog.map
        (fun sc => sc.progress)).drop (({} : AppState).stateLog.length) =
      some 0 :: ((List.range 2).map (fun k => some (jsRound100 k 2)) ++
        [some 100]) :=
  (scan_progress_formula libMovies keysOn inpC3 {} w0
    { new_files := [fileQ, fileQ2], removed_paths := [] } 2 rfl rfl
    (by decide)
    (fun f _ => ⟨{ title := f.filename }, rfl⟩)
    (fun f _ => ⟨f.remote_path, rfl⟩)).1

-- ─── C6: metadata failures are localized, never thrown ───────────────────────

theorem rateLimitedFetch_result (o : Oracle) (u : String) (w : World) :
    (rateLimitedFetch o u w).1 = o w.log.length := by
  unfold rateLimitedFetch sleep fetchRaw
  dsimp only
  cases o w.log.length <;> rfl

/-- Any pointwise-failing oracle (network rejection, non-2xx status, or
2xx with no movie results) leaves `fetchWithRetryAux` with a failing
outcome of the same shape. -/
theorem fwrAux_failing (o : Oracle) (u : String) (h : failingMovie o) :
    ∀ (fuel i : Nat) (w : World),
      match (fetchWithRetryAux o u i fuel w).1 with
      | .error _ => True
      | .ok r => r.ok = false ∨ r.body.movieResults = [] := by
  intro fuel
  induction fuel with
  | zero => intro i w; trivial
  | succ fuel ih =>
    intro i w
    rcases hrl : rateLimitedFetch o u w with ⟨resR, w1⟩
    cases resR with
    | error e => simp only [fetchWithRetryAux, hrl]
    | ok resp =>
      by_cases h429 : resp.status = 429
      · simp only [fetchWithRetryAux, hrl, if_pos h429]
        exact ih (i + 1) (sleep (2 ^ i * 2000) w1)
      · simp only [fetchWithRetryAux, hrl, if_neg h429]
        have hyp := h w.log.length
        have heq := rateLimitedFetch_result o u w
        rw [hrl] at heq
        rw [← heq] at hyp
        exact hyp

/-- With a failing oracle the movie fetcher returns the empty partial
record `{}` — the `try/catch` and `ok`/no-result checks absorb every
failure mode; nothing is thrown. -/
theorem fetchTmdbMovie_failing (o : Oracle) (t : String) (y : Option Int)
    (w : World) (h : failingMovie o) : (fetchTmdbMovie o t y w).1 = {} := by
  have hres : match (fetchWithRetry o (movieSearchUrl t y) 3 w).1 with
      | .error _ => True
      | .ok r => r.ok = false ∨ r.body.movieResults = [] :=
    fwrAux_failing o (movieSearchUrl t y) h 3 0 w
  rcases hf : fetchWithRetry o (movieSearchUrl t y) 3 w with ⟨res, w1⟩
  rw [hf] at hres
  simp only [fetchTmdbMovie, hf]
  cases res with
  | error e => rfl
  | ok resp =>
    dsimp only
    dsimp only at hres
    cases hok : resp.ok with
    | false => simp [hok]
    | true =>
      rcases hres with hres | hres
      · rw [hok] at hres
        cases hres
      · simp [hok, hres]

/-- Spreading the empty partial record over a base item is the identity:
`{...base, ...{}} = base`. -/
theorem mergeItem_default (b : MediaItem) : mergeItem b {} = b := rfl

/-- C6: (1) whenever the listing and the per-file parse/hash commands
succeed, `scanLibrary` returns `ok` regardless of every provider response
— a metadata miss or failure never throws out of the lookup and the scan
proceeds; (2) a failing provider leaves the movie fetcher with the empty
partial record; (3) merging the empty record is the identity, and (4) the
base record each file is committed from carries `metadataConfidence =
low`, so such items are committed with confidence `low`. -/
theorem metadata_failure_localized :
    (∀ (lib : Library) (keys : ApiKeys) (inp : ScanInputs) (s : AppState)
        (w : World) (res : LibraryScanResult), inp.listing = .ok res →
        (∀ f ∈ res.new_files, ∃ p, inp.parse f.filename = .ok p) →
        (∀ f ∈ res.new_files, ∃ i, inp.hash f.remote_path = .ok i) →
        ∃ v, (scanLibrary lib keys inp s w).1 = .ok v) ∧
    (∀ (o : Oracle) (t : String) (y : Option Int) (w : World),
        failingMovie o → (fetchTmdbMovie o t y w).1 = {}) ∧
    (∀ b : MediaItem, mergeItem b {} = b) ∧
    (∀ (lib : Library) (f : DiscoveredFile) (parsed : ParsedTitle)
        (id : String) (now : Int),
        (mkBase lib f parsed id now).metadataConfidence = some .low) := by
  refine ⟨?_, ?_, mergeItem_default, fun _ _ _ _ _ => rfl⟩
  · intro lib keys inp s w res hl hp hh
    obtain ⟨s', w', hlib, -⟩ := scanLibrary_ok_trace lib keys inp s w res hl hp hh
    exact ⟨_, by rw [hlib]⟩
  · intro o t y w h
    exact fetchTmdbMovie_failing o t y w h

theorem metadata_failure_localized_witness :
    (∃ v, (scanLibrary libMovies keysOn inpC3 ({} : AppState) w0).1 = .ok v) ∧
    (fetchTmdbMovie oracleFail "T" none w0).1 = {} :=
  ⟨metadata_failure_localized.1 libMovies keysOn inpC3 {} w0
      { new_files := [fileQ, fileQ2], removed_paths := [] } rfl
      (fun f _ => ⟨{ title := f.filename }, rfl⟩)
      (fun f _ => ⟨f.remote_path, rfl⟩),
   metadata_failure_localized.2.1 oracleFail "T" none w0 (fun _ => trivial)⟩

-- ─── C2: the merge is JS object spread ───────────────────────────────────────

theorem metaFor_tv (lib : Library) (keys : ApiKeys) (o : Oracle)
    (parsed : ParsedTitle) (w : World) (ht : lib.type = .tv)
    (hk : keys.tmdb ≠ "") :
    metaFor lib keys o parsed w =
      fetchTmdbTv o parsed.title parsed.season parsed.episode w := by
  unfold metaFor
  rw [ht]
  dsimp only
  rw [if_pos hk]

/-- A one-file TV scan commits exactly the object-spread merge of the base
record with the TV fetcher's returned partial record. -/
theorem scanLibrary_single_tv (lib : Library) (keys : ApiKeys)
    (inp : ScanInputs) (s : AppState) (w : World) (f : DiscoveredFile)
    (parsed : ParsedTitle) (id : String)
    (ht : lib.type = .tv) (hk : keys.tmdb ≠ "")
    (hl : inp.listing = .ok { new_files := [f], removed_paths := [] })
    (hp : inp.parse f.filename = .ok parsed)
    (hh : inp.hash f.remote_path = .ok id) :
    alGet (scanLibrary lib keys inp s w).2.1.mediaItems id =
      some (mergeItem (mkBase lib f parsed id w.time)
        (fetchTmdbTv inp.http parsed.title parsed.season parsed.episode w).1) := by
  rcases hftv : fetchTmdbTv inp.http parsed.title parsed.season parsed.episode w
    with ⟨meta, w2⟩
  have hmf : metaFor lib keys inp.http parsed w = (meta, w2) := by
    rw [metaFor_tv lib keys inp.http parsed w ht hk, hftv]
  have hone : ∀ s1 : AppState, processFiles lib keys inp 1 [f] 0 [] s1 w =
      (.ok [mergeItem (mkBase lib f parsed id w.time) meta],
        setScanState s1
          { progress := some (some (jsRound100 0 1)), newItemsFound := some 0 },
        w2) := by
    intro s1
    simp only [processFiles, hp, hh, hmf, List.nil_append,
      List.length_singleton]
    rw [if_neg (by decide)]
  unfold scanLibrary
  dsimp only
  unfold scanCore
  rw [hl]
  dsimp only
  simp only [applyRemovals, List.foldl_nil, List.length_singleton]
  rw [hone]
  dsimp only
  split
  · show alGet (alSet _ (mergeItem (mkBase lib f parsed id w.time) meta).id
        (mergeItem (mkBase lib f parsed id w.time) meta)) id = _
    exact alGet_alSet _ _ _
  · rename_i hcontra
    exact absurd (Nat.succ_pos 0) hcontra

/-- C2 counterexample: a TV match whose show record has no
`first_air_date`.  `fetchTmdbTv` still returns an (explicitly undefined)
`year` key, and the object spread lets it overwrite the parser's year: the
committed item has `year = undefined` although the base record had
`year = 1999` and the metadata result did not provide a year value — the
spec-reading merge `specMerge` (a field wins only when it has a value)
would have kept 1999, so the claim's merge is not what the code does. -/
theorem metadata_undefined_overwrites :
    ((alGet (scanLibrary libTv keysOn inpC2 ({} : AppState) w0).2.1.mediaItems
        "H").map (fun i => i.year) = some none) ∧
    parsedTv.year = some 1999 ∧
    (specMerge (mkBase libTv fileQ parsedTv "H" 0)
        (fetchTmdbTv oracleTvNoYear "Great Show" none none w0).1).year =
      some 1999 ∧
    specMerge (mkBase libTv fileQ parsedTv "H" 0)
        (fetchTmdbTv oracleTvNoYear "Great Show" none none w0).1 ≠
      mergeItem (mkBase libTv fileQ parsedTv "H" 0)
        (fetchTmdbTv oracleTvNoYear "Great Show" none none w0).1 :=
  ⟨by decide, by decide, by decide, by decide⟩

/-- C2 (amended): the committed MediaItem is the JS object-spread merge of
the base record with the fetcher's returned partial record: a key present
in the metadata result wins even when its value is explicitly `undefined`
(e.g. `fetchTmdbTv`'s `year` key clears the parser's year when the show
has no first-air date); keys absent from the metadata result keep the base
values (spreading the empty record is the identity). -/
theorem merge_spread_semantics :
    (∀ (lib : Library) (keys : ApiKeys) (inp : ScanInputs) (s : AppState)
        (w : World) (f : DiscoveredFile) (parsed : ParsedTitle) (id : String),
        lib.type = .tv → keys.tmdb ≠ "" →
        inp.listing = .ok { new_files := [f], removed_paths := [] } →
        inp.parse f.filename = .ok parsed →
        inp.hash f.remote_path = .ok id →
        alGet (scanLibrary lib keys inp s w).2.1.mediaItems id =
          some (mergeItem (mkBase lib f parsed id w.time)
            (fetchTmdbTv inp.http parsed.title parsed.season parsed.episode w).1)) ∧
    (∀ b : MediaItem, mergeItem b {} = b) ∧
    (∀ (b : MediaItem) (m : PMediaItem),
        (mergeItem b m).year = m.year.getD b.year) :=
  ⟨fun lib keys inp s w f parsed id ht hk hl hp hh =>
      scanLibrary_single_tv lib keys inp s w f parsed id ht hk hl hp hh,
   mergeItem_default,
   fun _ _ => rfl⟩

theorem merge_spread_semantics_witness :
    alGet (scanLibrary libTv keysOn inpC2 ({} : AppState) w0).2.1.mediaItems
        "H" =
      some (mergeItem (mkBase libTv fileQ parsedTv "H" w0.time)
        (fetchTmdbTv inpC2.http parsedTv.title parsedTv.season parsedTv.episode
          w0).1) :=
  merge_spread_semantics.1 libTv keysOn inpC2 {} w0 fileQ parsedTv "H" rfl
    (by decide) rfl rfl rfl
